import Mathlib

/-!
Verification development for the cart-perks / bundle storefront feature layer.

The definitions below are a shallow embedding of the TypeScript sources:
  * the cart route with `processCartPerks`, `calculateSubtotalExcludingFreeItems`
    and `calculateCartPerksState`;
  * `app/lib/freeItemManager.ts` (`resolveProductVariant`, `createFreeItemLine`,
    `shouldRemoveFreeItemLine`, `getFreeItemsToRemove`, `processFreeItems`,
    `validateFreeItemOperations`);
  * the bundle cart route with `validateRemainingBundles` and the discount
    toggling in its `action` handler;
  * `app/components/CartMain.tsx` (`groupCartLines`, bundle completeness).

JavaScript numbers are modelled as `Option ℚ` where `none` plays the role of
`NaN`; JavaScript string-or-undefined values are `Option String`.
-/

set_option autoImplicit false

namespace CartSpec

/-- JavaScript number: `none` models `NaN`; finite values are rationals. -/
abbrev JSNum := Option ℚ

/-- JavaScript `+` on numbers: `NaN` is absorbing. -/
def jsAdd (a b : JSNum) : JSNum :=
  match a, b with
  | some x, some y => some (x + y)
  | _, _ => none

/-- JavaScript `-` on numbers: `NaN` is absorbing. -/
def jsSub (a b : JSNum) : JSNum :=
  match a, b with
  | some x, some y => some (x - y)
  | _, _ => none

/-- JavaScript `>=` on numbers: any comparison with `NaN` is false. -/
def jsGe (a b : JSNum) : Bool :=
  match a, b with
  | some x, some y => decide (x ≥ y)
  | _, _ => false

/-- JavaScript `>` on numbers: any comparison with `NaN` is false. -/
def jsGt (a b : JSNum) : Bool :=
  match a, b with
  | some x, some y => decide (x > y)
  | _, _ => false

/-- JavaScript `<` on numbers: any comparison with `NaN` is false. -/
def jsLt (a b : JSNum) : Bool :=
  match a, b with
  | some x, some y => decide (x < y)
  | _, _ => false

/-- JavaScript `Math.max`: `NaN` is absorbing. -/
def jsMax (a b : JSNum) : JSNum :=
  match a, b with
  | some x, some y => some (max x y)
  | _, _ => none

/-- JavaScript truthiness for a string-or-undefined value:
`undefined` and `""` are falsy. -/
def jsTruthyStr (s : Option String) : Bool :=
  match s with
  | none => false
  | some s => !(s == "")

/-- JavaScript `a || b` for a string-or-undefined `a` with string default `b`. -/
def jsStrOr (a : Option String) (b : String) : String :=
  match a with
  | none => b
  | some s => if s == "" then b else s

/-- Numeric value of a decimal digit character. -/
def digitVal (c : Char) : Nat := c.toNat - 48

/-- Value of a digit string read as a natural number. -/
def natOfDigits (ds : List Char) : Nat :=
  ds.foldl (fun n c => 10 * n + digitVal c) 0

/-- Value of a digit string read as a fractional part. -/
def fracOfDigits (ds : List Char) : ℚ :=
  (natOfDigits ds : ℚ) / ((10 : ℚ) ^ ds.length)

/-- Model of JavaScript `parseFloat` on the decimal fragment: leading spaces are
skipped, then an optional sign, integer digits and an optional `.`-separated
fractional part are read as the longest numeric prefix; a string with no
numeric prefix gives `NaN` (`none`).  Exponents, `Infinity` and exotic
whitespace are not modelled (no input in this development uses them). -/
def parseFloatJS (s : String) : Option ℚ :=
  let cs := s.toList.dropWhile (fun c => c == ' ')
  let sign : ℚ := match cs with
    | '-' :: _ => -1
    | _ => 1
  let cs1 : List Char := match cs with
    | '-' :: r => r
    | '+' :: r => r
    | _ => cs
  let ds := cs1.takeWhile Char.isDigit
  let rest := cs1.drop ds.length
  match rest with
  | '.' :: r2 =>
    let fs := r2.takeWhile Char.isDigit
    if ds.isEmpty && fs.isEmpty then none
    else some (sign * ((natOfDigits ds : ℚ) + fracOfDigits fs))
  | _ => if ds.isEmpty then none else some (sign * (natOfDigits ds : ℚ))

/-- A cart line attribute, a key/value string pair. -/
structure Attr where
  key : String
  value : String
deriving DecidableEq, Repr

/-- A merchandise selected option (e.g. a color). -/
structure SelectedOption where
  name : String
  value : String
deriving DecidableEq, Repr

/-- A cart line as the engine sees it.  Optional fields model fields that may
be absent (`undefined`) on the wire: `quantity`, the attribute list, the cost
amount string (`line.cost?.totalAmount?.amount`), the undiscounted merchandise
price (`line.merchandise.price?.amount`) and the owning product handle
(`line.merchandise?.product?.handle`). -/
structure CartLine where
  id : String
  quantity : Option Nat
  attributes : Option (List Attr)
  costAmount : Option String
  merchandisePriceAmount : Option String
  merchandiseOptions : List SelectedOption
  productHandle : Option String
deriving DecidableEq, Repr

/-- A cart snapshot: `lines` models `cart?.lines?.nodes` (absent when the
chain is undefined) and `attributes` models `cart?.attributes`. -/
structure Cart where
  lines : Option (List CartLine)
  attributes : Option (List Attr)
deriving DecidableEq, Repr

/-- `line.quantity || 1`: an absent or zero quantity counts as 1. -/
def jsQty (l : CartLine) : Nat :=
  match l.quantity with
  | none => 1
  | some q => if q == 0 then 1 else q

/-- `line.attributes?.find(attr => attr.key === k)?.value`. -/
def attrVal (l : CartLine) (k : String) : Option String :=
  ((l.attributes.getD []).find? (fun a => a.key == k)).map (·.value)

/-- `line.attributes?.some(attr => attr.key === '_FREE_ITEM' && attr.value === 'true')`. -/
def isFreeItemLine (l : CartLine) : Bool :=
  (l.attributes.getD []).any (fun a => a.key == "_FREE_ITEM" && a.value == "true")

/-- `parseFloat(line.cost?.totalAmount?.amount || '0')`. -/
def lineCost (l : CartLine) : JSNum :=
  parseFloatJS (jsStrOr l.costAmount "0")

/-- One step of the `reduce` in `calculateSubtotalExcludingFreeItems`:
free items are skipped, other lines contribute their parsed cost. -/
def subtotalStep (total : JSNum) (l : CartLine) : JSNum :=
  if isFreeItemLine l then total else jsAdd total (lineCost l)

/-- `calculateSubtotalExcludingFreeItems` from the cart-perks route: returns 0
when the line list is absent, otherwise folds `subtotalStep` over the lines. -/
def calculateSubtotalExcludingFreeItems (cart : Cart) : JSNum :=
  match cart.lines with
  | none => some 0
  | some nodes => nodes.foldl subtotalStep (some 0)

/-- The experiment variant of the cart-perks feature. -/
inductive CartPerksVariant where
  | A
  | B
deriving DecidableEq, Repr

/-- Milestone kind: free shipping or a free item. -/
inductive MilestoneType where
  | shipping
  | freeItem
deriving DecidableEq, Repr

instance : BEq MilestoneType := ⟨fun a b => decide (a = b)⟩

/-- A milestone rule as configured in the `VARIANTS` table: a currency
threshold, a kind, and for free items a product handle, title and optional
variant (color) selector. -/
structure Milestone where
  threshold : Nat
  type : MilestoneType
  handle : Option String
  title : Option String
  variant : Option String
deriving DecidableEq, Repr

/-- The statically configured `VARIANTS` table of the cart-perks route. -/
def VARIANTS (v : CartPerksVariant) : List Milestone :=
  match v with
  | .A => [⟨50, .shipping, none, none, none⟩]
  | .B =>
    [⟨50, .shipping, none, none, none⟩,
     ⟨100, .freeItem, some "black-sunnies", some "Black Sunnies", none⟩,
     ⟨150, .freeItem, some "frontpack", some "Front Pack", some "green"⟩]

/-- A milestone together with its derived progress flags (the JS spread
`{...milestone, achieved, remaining, eligible}`). -/
structure MilestoneProgress extends Milestone where
  achieved : Bool
  remaining : JSNum
  eligible : Bool
deriving DecidableEq, Repr

/-- The derived cart-perks state (`calculateCartPerksState`'s result). -/
structure CartPerksState where
  variant : CartPerksVariant
  subtotal : JSNum
  milestones : List MilestoneProgress
  nextMilestone : Option MilestoneProgress
  hasProgress : Bool
  allAchieved : Bool
deriving DecidableEq, Repr

/-- `calculateCartPerksState` from the cart-perks route: derives the subtotal
excluding free items and maps every milestone of the selected variant to its
progress record. -/
def calculateCartPerksState (cart : Cart) (variant : CartPerksVariant) : CartPerksState :=
  let subtotal := calculateSubtotalExcludingFreeItems cart
  let milestones := VARIANTS variant
  let milestoneProgress := milestones.map (fun m =>
    { toMilestone := m
      achieved := jsGe subtotal (some (m.threshold : ℚ))
      remaining := jsMax (some 0) (jsSub (some (m.threshold : ℚ)) subtotal)
      eligible := jsGe subtotal (some (m.threshold : ℚ)) })
  { variant := variant
    subtotal := subtotal
    milestones := milestoneProgress
    nextMilestone := milestoneProgress.find? (fun m => !m.achieved)
    hasProgress := jsGt subtotal (some 0) && milestoneProgress.any (fun m => !m.achieved)
    allAchieved := milestoneProgress.all (·.achieved) }

/-- A catalog product variant as returned by the storefront query. -/
structure ProductVariant where
  id : String
  availableForSale : Bool
  title : String
  priceAmount : String
  selectedOptions : List SelectedOption
deriving DecidableEq, Repr

/-- A catalog product: `selectedOrFirstAvailableVariant` is the default
variant (absent when no variant is available), `variants` models
`variants.nodes`. -/
structure Product where
  id : String
  title : String
  handle : String
  selectedOrFirstAvailableVariant : Option ProductVariant
  variants : List ProductVariant
deriving DecidableEq, Repr

/-- The storefront catalog collaborator: a query by handle that either throws
(`Except.error`), returns no product (`Except.ok none`) or returns a
product. -/
abbrev Catalog := String → Except Unit (Option Product)

/-- `resolveProductVariant` from `freeItemManager.ts`: returns `none` when the
storefront client is absent, the query throws, or no product is found; with a
falsy variant spec it returns the selected-or-first-available variant;
otherwise it looks for a variant whose `color` option equals the spec
case-insensitively and falls back to the default variant when none matches. -/
def resolveProductVariant (handle : String) (variantSpec : Option String)
    (storefront : Option Catalog) : Option ProductVariant :=
  match storefront with
  | none => none
  | some q =>
    match q handle with
    | .error _ => none
    | .ok none => none
    | .ok (some product) =>
      if !(jsTruthyStr variantSpec) then product.selectedOrFirstAvailableVariant
      else
        let spec := variantSpec.getD ""
        match product.variants.find? (fun variant =>
            variant.selectedOptions.any (fun option =>
              option.name.toLower == "color" && option.value.toLower == spec.toLower)) with
        | some matchingVariant => some matchingVariant
        | none => product.selectedOrFirstAvailableVariant

/-- The line input built by `createFreeItemLine` (what is sent to
`cart.addLines`). -/
structure FreeLineInput where
  merchandiseId : String
  quantity : Nat
  attributes : List Attr
deriving DecidableEq, Repr

/-- `createFreeItemLine` from `freeItemManager.ts`: a quantity-1 line for the
resolved variant carrying the three reserved free-item tags; the threshold tag
is the milestone's threshold stringified. -/
def createFreeItemLine (variant : ProductVariant) (milestone : MilestoneProgress) : FreeLineInput :=
  { merchandiseId := variant.id
    quantity := 1
    attributes :=
      [⟨"_FREE_ITEM", "true"⟩,
       ⟨"_FREE_ITEM_TYPE", jsStrOr milestone.handle "unknown"⟩,
       ⟨"_FREE_ITEM_THRESHOLD", Nat.repr milestone.threshold⟩] }

/-- `shouldRemoveFreeItemLine` from `freeItemManager.ts`: false for lines with
no attribute list, non-free lines and free lines without a threshold tag;
otherwise true iff the current subtotal is below the parsed stored
threshold. -/
def shouldRemoveFreeItemLine (l : CartLine) (currentSubtotal : JSNum) : Bool :=
  match l.attributes with
  | none => false
  | some attrs =>
    if !(attrs.any (fun a => a.key == "_FREE_ITEM" && a.value == "true")) then false
    else
      match attrs.find? (fun a => a.key == "_FREE_ITEM_THRESHOLD") with
      | none => false
      | some thresholdAttr => jsLt currentSubtotal (parseFloatJS thresholdAttr.value)

/-- `getFreeItemsToRemove` from `freeItemManager.ts`. -/
def getFreeItemsToRemove (cartLines : List CartLine) (currentSubtotal : JSNum) : List String :=
  (cartLines.filter (fun line => shouldRemoveFreeItemLine line currentSubtotal)).map (·.id)

/-- One entry of `FreeItemOperations.itemsToAdd`. -/
structure AddItem where
  milestone : MilestoneProgress
  variant : ProductVariant
  line : FreeLineInput
deriving DecidableEq, Repr

/-- `FreeItemOperations` from `freeItemManager.ts`. -/
structure FreeItemOperations where
  itemsToAdd : List AddItem
  itemsToRemove : List String
deriving DecidableEq, Repr

/-- JavaScript `===` between two string-or-undefined values. -/
def jsOptStrEq (a b : Option String) : Bool := a == b

/-- One iteration of the `for` loop of `processFreeItems`: skip milestones
with a falsy handle, skip when a free line for the milestone's product handle
is already in the cart, resolve the variant (skipping on failure or
unavailability), otherwise push the add operation. -/
def processFreeItemsStep (cart : Cart) (storefront : Option Catalog)
    (acc : List AddItem) (milestone : MilestoneProgress) : List AddItem :=
  if !(jsTruthyStr milestone.handle) then acc
  else
    let existingItem := (cart.lines.getD []).any (fun line =>
      jsOptStrEq line.productHandle milestone.handle && isFreeItemLine line)
    if existingItem then acc
    else
      match resolveProductVariant (milestone.handle.getD "") milestone.variant storefront with
      | none => acc
      | some variant =>
        if !variant.availableForSale then acc
        else acc ++ [⟨milestone, variant, createFreeItemLine variant milestone⟩]

/-- `processFreeItems` from `freeItemManager.ts`: the removal list is computed
from the current lines (empty when the line chain is absent) and the add list
from the loop over the required milestones. -/
def processFreeItems (requiredItems : List MilestoneProgress) (cart : Cart)
    (currentSubtotal : JSNum) (storefront : Option Catalog) : FreeItemOperations :=
  let itemsToRemove :=
    match cart.lines with
    | some nodes => getFreeItemsToRemove nodes currentSubtotal
    | none => []
  let itemsToAdd := requiredItems.foldl (processFreeItemsStep cart storefront) []
  ⟨itemsToAdd, itemsToRemove⟩

/-- Result of `validateFreeItemOperations`. -/
structure ValidationResult where
  valid : Bool
  errors : List String
deriving DecidableEq, Repr

/-- JavaScript template interpolation of a string-or-undefined value
(template literals render `undefined` as the text "undefined"). -/
def jsTemplate (s : Option String) : String :=
  match s with
  | none => "undefined"
  | some s => s

/-- Display name of a milestone type, as interpolated in error messages. -/
def MilestoneType.show : MilestoneType → String
  | .shipping => "shipping"
  | .freeItem => "freeItem"

/-- Errors contributed by one add operation in `validateFreeItemOperations`. -/
def validateAddErrors (item : AddItem) : List String :=
  (if !(jsTruthyStr item.milestone.handle) then
    ["Missing handle for milestone: " ++ item.milestone.type.show] else []) ++
  (if item.variant.id == "" then
    ["Missing variant ID for: " ++ jsTemplate item.milestone.handle] else []) ++
  (if !item.variant.availableForSale then
    ["Variant not available: " ++ item.variant.title] else []) ++
  (if item.line.merchandiseId == "" then
    ["Missing merchandise ID for: " ++ jsTemplate item.milestone.handle] else [])

/-- `validateFreeItemOperations` from `freeItemManager.ts`: collects errors
over the add operations (falsy handle, variant id, availability, merchandise
id) and the removal ids (falsy id); valid iff no error. -/
def validateFreeItemOperations (operations : FreeItemOperations) : ValidationResult :=
  let errors :=
    (operations.itemsToAdd.flatMap validateAddErrors) ++
    (operations.itemsToRemove.flatMap (fun lineId =>
      if lineId == "" then ["Invalid line ID for removal"] else []))
  ⟨errors.isEmpty, errors⟩

/-- `getRequiredFreeItems` from `~/lib/cartPerks`: filters the state's
milestones to those of type `freeItem` that are achieved and have a truthy
handle (`m.type === 'freeItem' && m.achieved && m.handle`).  The source's
trailing `.map` rebuilds each result from exactly the milestone fields
(threshold, type, handle, title, variant); the embedding keeps the whole
progress record, whose `toMilestone` part carries those five fields, since
every later consumer reads only them. -/
def getRequiredFreeItems (st : CartPerksState) : List MilestoneProgress :=
  st.milestones.filter
    (fun m => m.type == MilestoneType.freeItem && m.achieved && jsTruthyStr m.handle)

/-- `shouldHaveFreeShipping` from `~/lib/cartPerks`: the `achieved` flag of
the first milestone of type `shipping`
(`state.milestones.find((m) => m.type === 'shipping')?.achieved || false`),
false when there is none. -/
def shouldHaveFreeShipping (st : CartPerksState) : Bool :=
  match st.milestones.find? (fun m => m.type == MilestoneType.shipping) with
  | none => false
  | some m => m.achieved

/-- The mutations `processCartPerks` executes after planning: an optional
`__FREE_SHIPPING` attribute write (with the desired boolean value), free lines
to add and free line ids to remove.  `processCartPerks` never touches discount
codes. -/
structure CartPerksPlan where
  attributeUpdate : Option Bool
  itemsToAdd : List AddItem
  itemsToRemove : List String
deriving DecidableEq, Repr

/-- The plan with no effect. -/
def emptyPlan : CartPerksPlan := ⟨none, [], []⟩

/-- The pure planning core of `processCartPerks` from the cart-perks route:
computes the perks state, decides whether the `__FREE_SHIPPING` attribute
needs updating, and (only when there are required free items) runs
`processFreeItems`; a validation failure aborts the whole pass before any
mutation, which is modelled as the empty plan.

`needsShippingUpdate` is the `needsAttributeUpdate` computation of
`processCartPerks`: the `__FREE_SHIPPING` cart attribute needs a write when
its stored value (read by `cartResult?.attributes?.find`) disagrees with the
desired flag, absent being read as not-"true". -/
def needsShippingUpdate (cartResult : Cart) (shouldHaveShipping : Bool) : Bool :=
  let currentShippingAttrVal :=
    ((cartResult.attributes.getD []).find? (fun a => a.key == "__FREE_SHIPPING")).map (·.value)
  (shouldHaveShipping && !(currentShippingAttrVal == some "true")) ||
  (!shouldHaveShipping && (currentShippingAttrVal == some "true"))

def processCartPerksPlan (cartResult : Cart) (variant : CartPerksVariant)
    (storefront : Option Catalog) : CartPerksPlan :=
  let cartPerksState := calculateCartPerksState cartResult variant
  let subtotal := cartPerksState.subtotal
  let shouldHaveShipping := shouldHaveFreeShipping cartPerksState
  let needsAttributeUpdate := needsShippingUpdate cartResult shouldHaveShipping
  let requiredFreeItems := getRequiredFreeItems cartPerksState
  if requiredFreeItems.length > 0 then
    let freeItemOperations := processFreeItems requiredFreeItems cartResult subtotal storefront
    if (validateFreeItemOperations freeItemOperations).valid then
      { attributeUpdate := if needsAttributeUpdate then some shouldHaveShipping else none
        itemsToAdd := freeItemOperations.itemsToAdd
        itemsToRemove := freeItemOperations.itemsToRemove }
    else emptyPlan
  else
    { attributeUpdate := if needsAttributeUpdate then some shouldHaveShipping else none
      itemsToAdd := []
      itemsToRemove := [] }

/-- The cart line resulting from the external cart store applying one
`cart.addLines` entry of the plan: the reserved tags are those of the built
line, and the owning product handle is the milestone's handle (the variant was
resolved from `product(handle)`, and the store reports the owning product of
the merchandise id). -/
def appliedFreeLine (item : AddItem) : CartLine :=
  { id := ""
    quantity := some item.line.quantity
    attributes := some item.line.attributes
    costAmount := none
    merchandisePriceAmount := none
    merchandiseOptions := []
    productHandle := item.milestone.handle }

/-- Upsert of one cart attribute, modelling the external store's
`updateAttributes` for a single key. -/
def upsertAttr (attrs : List Attr) (k v : String) : List Attr :=
  if attrs.any (fun a => a.key == k) then
    attrs.map (fun a => if a.key == k then ⟨k, v⟩ else a)
  else attrs ++ [⟨k, v⟩]

/-- Simulated application of the line operations of a plan by the external
cart store: marked lines are removed by id and the built free lines are
appended. -/
def applyLineOps (lines : List CartLine) (itemsToRemove : List String)
    (itemsToAdd : List AddItem) : List CartLine :=
  (lines.filter (fun l => !(itemsToRemove.contains l.id))) ++ itemsToAdd.map appliedFreeLine

/-- Simulated application of a whole `processCartPerks` plan to a cart
snapshot: line removals and additions plus the `__FREE_SHIPPING` attribute
write when the plan carries one. -/
def applyCartPerksPlan (cart : Cart) (plan : CartPerksPlan) : Cart :=
  { lines := some (applyLineOps (cart.lines.getD []) plan.itemsToRemove plan.itemsToAdd)
    attributes :=
      match plan.attributeUpdate with
      | none => cart.attributes
      | some b =>
        some (upsertAttr (cart.attributes.getD []) "__FREE_SHIPPING" (if b then "true" else "false")) }

/-- Add `q` to the count stored under `k` in an association list, creating the
entry at the end when absent (models `bundles[k] = (bundles[k] || 0) + q` on a
JS object, in insertion order). -/
def assocAdd (m : List (String × Nat)) (k : String) (q : Nat) : List (String × Nat) :=
  if m.any (fun e => e.1 == k) then
    m.map (fun e => if e.1 == k then (e.1, e.2 + q) else e)
  else m ++ [(k, q)]

/-- One iteration of the counting `forEach` of `validateRemainingBundles`:
lines without attributes are skipped; a line with a truthy `_BUNDLE_ID` whose
`_BUNDLE_NAME` is exactly `men-t-shirt` adds its quantity (`quantity || 1`) to
its bundle's count. -/
def bundleCountStep (bundles : List (String × Nat)) (line : CartLine) : List (String × Nat) :=
  match line.attributes with
  | none => bundles
  | some attrs =>
    let bundleId := (attrs.find? (fun a => a.key == "_BUNDLE_ID")).map (·.value)
    let bundleName := (attrs.find? (fun a => a.key == "_BUNDLE_NAME")).map (·.value)
    if jsTruthyStr bundleId && (bundleName == some "men-t-shirt") then
      assocAdd bundles (bundleId.getD "") (jsQty line)
    else bundles

/-- Result record of `validateRemainingBundles`. -/
structure BundleValidation where
  hasValidBundles : Bool
  totalValidBundles : Nat
  allBundleCounts : List (String × Nat)
deriving DecidableEq, Repr

/-- `validateRemainingBundles` from the bundle cart route: counts quantities
per `_BUNDLE_ID` over `men-t-shirt`-named lines and reports the bundles whose
count is exactly 3.  (The source's null/array guards collapse to the empty
list check in this typed model.) -/
def validateRemainingBundles (lines : List CartLine) : BundleValidation :=
  if lines.isEmpty then ⟨false, 0, []⟩
  else
    let bundles := lines.foldl bundleCountStep []
    let validBundles := bundles.filter (fun e => e.2 == 3)
    ⟨decide (validBundles.length > 0), validBundles.length, bundles⟩

/-- The cart state the bundle route's `action` handler operates on: the lines
and the applied discount codes. -/
structure CartState where
  lines : List CartLine
  discountCodes : List String
deriving DecidableEq, Repr

/-- A cart-mutating form action: add lines, update line quantities, or remove
lines by id. -/
inductive CartOp where
  | linesAdd (newLines : List CartLine)
  | linesUpdate (updates : List (String × Nat))
  | linesRemove (lineIds : List String)
deriving DecidableEq, Repr

/-- The discount toggle shared by the `LinesUpdate` and `LinesRemove` branches
of the bundle route's `action`: remove `BUNDLE20` (keeping the other codes)
when it is applied but no valid bundle remains; append it to the current codes
when a valid bundle exists and it is missing. -/
def toggleBundleDiscount (st : CartState) : CartState :=
  let remainingBundles := validateRemainingBundles st.lines
  let shouldHaveBundleDiscount := remainingBundles.hasValidBundles
  let currentlyHasBundleDiscount := st.discountCodes.any (· == "BUNDLE20")
  if currentlyHasBundleDiscount && !shouldHaveBundleDiscount then
    { st with discountCodes := st.discountCodes.filter (fun code => !(code == "BUNDLE20")) }
  else if !currentlyHasBundleDiscount && shouldHaveBundleDiscount then
    { st with discountCodes := st.discountCodes ++ ["BUNDLE20"] }
  else st

/-- The `LinesAdd` branch of the bundle route's `action`: the store appends
the lines; then, when any added line carries a `_BUNDLE_NAME` attribute and
`BUNDLE20` is not yet applied, `updateDiscountCodes(['BUNDLE20'])` replaces
the cart's discount codes with just `BUNDLE20`. -/
def linesAddStep (st : CartState) (newLines : List CartLine) : CartState :=
  let st1 : CartState := { st with lines := st.lines ++ newLines }
  let hasBundleItems := newLines.any (fun line =>
    (line.attributes.getD []).any (fun a => a.key == "_BUNDLE_NAME"))
  if hasBundleItems then
    let hasBundleDiscount := st1.discountCodes.any (· == "BUNDLE20")
    if !hasBundleDiscount then { st1 with discountCodes := ["BUNDLE20"] }
    else st1
  else st1

/-- The external store's `updateLines` for one `{id, quantity}` input:
quantity 0 deletes the line, otherwise the line's quantity is set. -/
def applyLineUpdate (lines : List CartLine) (u : String × Nat) : List CartLine :=
  lines.filterMap (fun l =>
    if l.id == u.1 then
      if u.2 == 0 then none else some { l with quantity := some u.2 }
    else some l)

/-- The bundle route's `action` handler, one form submission at a time:
`LinesAdd` with its unconditional auto-apply, `LinesUpdate` and `LinesRemove`
followed by the bundle-validity discount toggle. -/
def applyCartAction (st : CartState) (op : CartOp) : CartState :=
  match op with
  | .linesAdd newLines => linesAddStep st newLines
  | .linesUpdate updates =>
    toggleBundleDiscount { st with lines := updates.foldl applyLineUpdate st.lines }
  | .linesRemove lineIds =>
    toggleBundleDiscount { st with lines := st.lines.filter (fun l => !(lineIds.contains l.id)) }

/-- A displayed bundle group (`BundleGroup` in `CartMain.tsx`). -/
structure BundleGroup where
  bundleId : String
  bundleName : String
  lines : List CartLine
  totalPrice : JSNum
  originalPrice : JSNum
  savings : JSNum
  colorSummary : String
deriving DecidableEq, Repr

/-- Push a line into the bundle bucket keyed by `bid`, creating the bucket
(with zeroed summary fields, as in the source) when absent. -/
def assocPushLine (m : List (String × BundleGroup)) (bid bname : String)
    (line : CartLine) : List (String × BundleGroup) :=
  if m.any (fun e => e.1 == bid) then
    m.map (fun e =>
      if e.1 == bid then (e.1, { e.2 with lines := e.2.lines ++ [line] }) else e)
  else
    m ++ [(bid, { bundleId := bid, bundleName := bname, lines := [line],
                  totalPrice := some 0, originalPrice := some 0, savings := some 0,
                  colorSummary := "" })]

/-- One iteration of the bucketing `forEach` of `groupCartLines`: lines with
truthy `_BUNDLE_NAME` and `_BUNDLE_ID` go into the bucket keyed by the id,
every other line goes to the individual list. -/
def groupStep (acc : List (String × BundleGroup) × List CartLine) (line : CartLine) :
    List (String × BundleGroup) × List CartLine :=
  let bundleName := attrVal line "_BUNDLE_NAME"
  let bundleId := attrVal line "_BUNDLE_ID"
  if jsTruthyStr bundleName && jsTruthyStr bundleId then
    (assocPushLine acc.1 (bundleId.getD "") (bundleName.getD "") line, acc.2)
  else (acc.1, acc.2 ++ [line])

/-- The summary phase of `groupCartLines` for one bundle: current total,
pre-discount total, savings, and the quantity-weighted color summary. -/
def summarizeBundle (bundle : BundleGroup) : BundleGroup :=
  let totalPrice := bundle.lines.foldl (fun sum line => jsAdd sum (lineCost line)) (some 0)
  let originalPrice := bundle.lines.foldl (fun sum line =>
    jsAdd sum (parseFloatJS (jsStrOr line.merchandisePriceAmount "0"))) (some 0)
  let savings := jsSub originalPrice totalPrice
  let colorCounts := bundle.lines.foldl (fun counts line =>
    let color := jsStrOr
      ((line.merchandiseOptions.find? (fun opt => opt.name.toLower == "color")).map (·.value))
      "Unknown"
    assocAdd counts color (jsQty line)) []
  let colorSummary := String.intercalate ", "
    (colorCounts.map (fun e => if e.2 > 1 then e.1 ++ " ×" ++ Nat.repr e.2 else e.1))
  { bundle with totalPrice := totalPrice, originalPrice := originalPrice,
                savings := savings, colorSummary := colorSummary }

/-- `groupCartLines` from `CartMain.tsx`: bucket the lines, then compute each
bundle's summary; returns the bundle groups (in insertion order) and the
ungrouped individual lines. -/
def groupCartLines (lines : List CartLine) : List BundleGroup × List CartLine :=
  let acc := lines.foldl groupStep ([], [])
  (acc.1.map (fun e => summarizeBundle e.2), acc.2)

/-- `totalItemsInBundle` from the `BundleGroup` component: the quantity-summed
size of the group. -/
def totalItemsInBundle (lines : List CartLine) : Nat :=
  lines.foldl (fun sum line => sum + jsQty line) 0

/-- `isCompleteBundle` from the `BundleGroup` component: the group is complete
iff it holds exactly 3 items, quantity-summed. -/
def isCompleteBundle (lines : List CartLine) : Bool :=
  totalItemsInBundle lines == 3

/-- Whether a line carries an attribute with the given key (any value). -/
def hasAttrKey (l : CartLine) (k : String) : Bool :=
  (l.attributes.getD []).any (fun a => a.key == k)

/-- Number of non-removed free-tagged lines whose owning product handle is
`h`. -/
def countFreeHandle (h : String) (lines : List CartLine) : Nat :=
  lines.countP (fun l => jsOptStrEq l.productHandle (some h) && isFreeItemLine l)

/-- Simulated application of the line part of `FreeItemOperations` by the
external cart store. -/
def applyFreeItemOperations (cart : Cart) (ops : FreeItemOperations) : Cart :=
  { cart with lines := some (applyLineOps (cart.lines.getD []) ops.itemsToRemove ops.itemsToAdd) }

/-- One reconciliation round for a single milestone: run `processFreeItems`
and apply the resulting operations to the cart. -/
def reconcileOnce (m : MilestoneProgress) (cart : Cart) (sub : JSNum)
    (sf : Option Catalog) : Cart :=
  applyFreeItemOperations cart (processFreeItems [m] cart sub sf)

/-! Concrete inputs used by counterexamples and witnesses. -/

/-- A paid line with the given id and cost amount string. -/
def mkPaidLine (i amt : String) : CartLine :=
  ⟨i, some 1, some [], some amt, none, [], none⟩

/-- An engine-style free line with the given id, product handle and stored
threshold string. -/
def mkFreeLine (i h th : String) : CartLine :=
  ⟨i, some 1, some [⟨"_FREE_ITEM", "true"⟩, ⟨"_FREE_ITEM_THRESHOLD", th⟩], some "0.0", none, [],
   some h⟩

/-- An available catalog variant for the black-sunnies product. -/
def bsVariant : ProductVariant := ⟨"gid-v1", true, "Black Sunnies", "25.0", []⟩

/-- The black-sunnies catalog product. -/
def bsProduct : Product :=
  ⟨"gid-p1", "Black Sunnies", "black-sunnies", some bsVariant, [bsVariant]⟩

/-- A catalog that resolves only the black-sunnies product. -/
def demoCatalog : Catalog :=
  fun h => if h == "black-sunnies" then .ok (some bsProduct) else .ok none

/-- A catalog whose every query throws. -/
def throwingCatalog : Catalog := fun _ => .error ()

/-- A cart with 120 of paid merchandise and a stale black-sunnies free line
whose stored threshold (150) is above the subtotal. -/
def staleCart : Cart :=
  ⟨some [mkPaidLine "l1" "120", mkFreeLine "l2" "black-sunnies" "150"], none⟩

/-- A line whose cost string has no numeric prefix. -/
def malformedCostLine : CartLine := mkPaidLine "l1" "abc"

/-- A cart holding only `malformedCostLine`. -/
def malformedCostCart : Cart := ⟨some [malformedCostLine], none⟩

/-- A men-t-shirt bundle line with the given id, bundle id and quantity. -/
def mkBundleLine (i g : String) (q : Nat) : CartLine :=
  ⟨i, some q, some [⟨"_BUNDLE_NAME", "men-t-shirt"⟩, ⟨"_BUNDLE_ID", g⟩], some "25.0", none, [],
   none⟩

/-- A quantity-3 bundle line under a bundle name other than men-t-shirt. -/
def otherBundleLine : CartLine :=
  ⟨"o1", some 3, some [⟨"_BUNDLE_NAME", "women-t-shirt"⟩, ⟨"_BUNDLE_ID", "g9"⟩], some "25.0",
   none, [], none⟩

/-- A line carrying `_BUNDLE_NAME` but no `_BUNDLE_ID`. -/
def nameOnlyLine : CartLine :=
  ⟨"n1", some 1, some [⟨"_BUNDLE_NAME", "men-t-shirt"⟩], some "25.0", none, [], none⟩

/-- The black-sunnies milestone-progress entry at subtotal 120. -/
def bsMilestoneProgress : MilestoneProgress :=
  ⟨⟨100, .freeItem, some "black-sunnies", some "Black Sunnies", none⟩, true, some 0, true⟩

/-- A cart whose free line's stored threshold (100) is satisfied by the
subtotal, with the shipping attribute already set. -/
def wIdemCart : Cart :=
  ⟨some [mkPaidLine "l1" "120", mkFreeLine "l2" "black-sunnies" "100"],
   some [⟨"__FREE_SHIPPING", "true"⟩]⟩

/-! ## Helper lemmas -/

theorem subtotalStep_free {l : CartLine} (h : isFreeItemLine l = true) (a : JSNum) :
    subtotalStep a l = a := by
  simp [subtotalStep, h]

theorem subtotalStep_nonfree {l : CartLine} (h : isFreeItemLine l = false) (a : JSNum) :
    subtotalStep a l = jsAdd a (lineCost l) := by
  simp [subtotalStep, h]

theorem foldl_subtotalStep_all_free (lines : List CartLine)
    (h : ∀ l ∈ lines, isFreeItemLine l = true) :
    ∀ a : JSNum, lines.foldl subtotalStep a = a := by
  induction lines with
  | nil => intro a; rfl
  | cons l rest ih =>
    intro a
    rw [List.foldl_cons, subtotalStep_free (h l (by simp))]
    exact ih (fun x hx => h x (by simp [hx])) a

theorem foldl_subtotalStep_filter_nonfree (lines : List CartLine) :
    ∀ a : JSNum,
      lines.foldl subtotalStep a =
        (lines.filter (fun l => !isFreeItemLine l)).foldl subtotalStep a := by
  induction lines with
  | nil => intro a; rfl
  | cons l rest ih =>
    intro a
    by_cases hf : isFreeItemLine l
    · rw [List.foldl_cons, subtotalStep_free hf]
      simpa [List.filter_cons, hf] using ih a
    · have hf' : isFreeItemLine l = false := by simpa using hf
      simp only [List.foldl_cons, List.filter_cons, hf', Bool.not_false, if_pos]
      exact ih _

theorem foldl_subtotalStep_some (lines : List CartLine)
    (h : ∀ l ∈ lines, isFreeItemLine l = false → lineCost l ≠ none) :
    ∀ a : ℚ,
      lines.foldl subtotalStep (some a) =
        some (a + ((lines.filter (fun l => !isFreeItemLine l)).map
          (fun l => (lineCost l).getD 0)).sum) := by
  induction lines with
  | nil => intro a; simp
  | cons l rest ih =>
    intro a
    by_cases hf : isFreeItemLine l
    · rw [List.foldl_cons, subtotalStep_free hf]
      simpa [List.filter_cons, hf] using ih (fun x hx hx' => h x (by simp [hx]) hx') a
    · have hf' : isFreeItemLine l = false := by simpa using hf
      obtain ⟨c, hc⟩ : ∃ c, lineCost l = some c := by
        rcases hx : lineCost l with _ | c
        · exact absurd hx (h l (by simp) hf')
        · exact ⟨c, rfl⟩
      rw [List.foldl_cons, subtotalStep_nonfree hf']
      have : jsAdd (some a) (lineCost l) = some (a + c) := by simp [jsAdd, hc]
      rw [this, ih (fun x hx hx' => h x (by simp [hx]) hx') (a + c)]
      simp [List.filter_cons, hf', hc, add_assoc]

/-! ## C4: milestone achievement boundary -/

/-- C4: for every cart and variant whose reconciliation subtotal is the
rational `s`, every milestone-progress entry of the evaluated variant has
`achieved = true` iff `s` is at least the threshold (boundary inclusive), and
its `remaining` is exactly `max 0 (threshold - s)`, hence never negative. -/
theorem C4_milestone_boundary (cart : Cart) (variant : CartPerksVariant) (s : ℚ)
    (h : (calculateCartPerksState cart variant).subtotal = some s) :
    ∀ mp ∈ (calculateCartPerksState cart variant).milestones,
      (mp.achieved = true ↔ (mp.threshold : ℚ) ≤ s) ∧
      mp.remaining = some (max 0 ((mp.threshold : ℚ) - s)) ∧
      ∀ r : ℚ, mp.remaining = some r → 0 ≤ r := by
  have hsub : calculateSubtotalExcludingFreeItems cart = some s := h
  intro mp hmp
  simp only [calculateCartPerksState, List.mem_map] at hmp
  obtain ⟨m, _, rfl⟩ := hmp
  refine ⟨?_, ?_, ?_⟩
  · simp [hsub, jsGe, ge_iff_le]
  · simp [hsub, jsMax, jsSub]
  · intro r hr
    simp only [hsub, jsMax, jsSub] at hr
    cases hr
    exact le_max_left 0 _

/-- Witness for C4 at the stale cart (subtotal 120, variant B) and its
black-sunnies milestone entry. -/
theorem C4_witness :
    (bsMilestoneProgress.achieved = true ↔ (bsMilestoneProgress.threshold : ℚ) ≤ 120) ∧
      bsMilestoneProgress.remaining = some (max 0 ((bsMilestoneProgress.threshold : ℚ) - 120)) ∧
      ∀ r : ℚ, bsMilestoneProgress.remaining = some r → 0 ≤ r :=
  C4_milestone_boundary staleCart .B 120 (by with_unfolding_all decide) bsMilestoneProgress
    (by with_unfolding_all decide)

/-! ## C3: subtotal excludes free items -/

/-- C3 counterexample: a non-free line whose cost string `"abc"` has no
numeric prefix is not treated as zero — the reconciliation subtotal of a cart
holding only that line is `NaN` (`none`), not `some 0` (the claimed value for
a zero-contribution line); no exception is involved either way. -/
theorem C3_counterexample :
    isFreeItemLine malformedCostLine = false ∧
    calculateSubtotalExcludingFreeItems malformedCostCart = none ∧
    calculateSubtotalExcludingFreeItems malformedCostCart ≠ some 0 := by
  with_unfolding_all decide

/-- C3 (amended): the reconciliation subtotal sums the parsed line cost of
every line not tagged `_FREE_ITEM="true"` provided each such cost parses (a
missing cost field is read as `"0"` and hence contributes zero); lines tagged
free contribute nothing, so a cart whose lines are all free has subtotal 0.
(The claim's "malformed cost treated as zero" does not hold: a cost string
with no numeric prefix parses to `NaN` and poisons the sum, see the
counterexample.) -/
theorem C3_subtotal_amended (cart : Cart) (lines : List CartLine)
    (hl : cart.lines = some lines)
    (hcost : ∀ l ∈ lines, isFreeItemLine l = false → lineCost l ≠ none) :
    calculateSubtotalExcludingFreeItems cart =
      some (((lines.filter (fun l => !isFreeItemLine l)).map
        (fun l => (lineCost l).getD 0)).sum) ∧
    (∀ l : CartLine, l.costAmount = none → lineCost l = some 0) ∧
    ((∀ l ∈ lines, isFreeItemLine l = true) →
      calculateSubtotalExcludingFreeItems cart = some 0) := by
  refine ⟨?_, ?_, ?_⟩
  · simp only [calculateSubtotalExcludingFreeItems, hl]
    rw [foldl_subtotalStep_some lines hcost 0, zero_add]
  · intro l h
    show parseFloatJS (jsStrOr l.costAmount "0") = some 0
    rw [h]
    with_unfolding_all decide
  · intro hfree
    simp only [calculateSubtotalExcludingFreeItems, hl]
    exact foldl_subtotalStep_all_free lines hfree (some 0)

/-- Witness for C3 (amended) at the stale cart: its subtotal is the sum of
the parsed costs of its non-free lines. -/
theorem C3_subtotal_amended_witness :
    calculateSubtotalExcludingFreeItems staleCart =
      some ((([mkPaidLine "l1" "120", mkFreeLine "l2" "black-sunnies" "150"].filter
        (fun l => !isFreeItemLine l)).map (fun l => (lineCost l).getD 0)).sum) :=
  (C3_subtotal_amended staleCart _ rfl (by with_unfolding_all decide)).1

/-! ## C6: free-item removal condition -/

theorem jsLt_eq_true_iff (a b : JSNum) :
    jsLt a b = true ↔ ∃ x y, a = some x ∧ b = some y ∧ x < y := by
  cases a <;> cases b <;> simp [jsLt]

/-- C6: a line is marked for removal iff it is tagged `_FREE_ITEM="true"`, it
carries a `_FREE_ITEM_THRESHOLD` tag whose value parses to a number `t`, and
the current subtotal is a number strictly less than `t`; in particular a free
line without the threshold tag, and any non-free line, is never removed. -/
theorem C6_removal_condition (l : CartLine) (sub : JSNum) :
    shouldRemoveFreeItemLine l sub = true ↔
      (isFreeItemLine l = true ∧
       ∃ attrs a t s, l.attributes = some attrs ∧
         attrs.find? (fun x => x.key == "_FREE_ITEM_THRESHOLD") = some a ∧
         parseFloatJS a.value = some t ∧ sub = some s ∧ s < t) := by
  rcases hattrs : l.attributes with _ | attrs
  · simp [shouldRemoveFreeItemLine, isFreeItemLine, hattrs]
  · have hfreeEq : isFreeItemLine l =
        attrs.any (fun a => a.key == "_FREE_ITEM" && a.value == "true") := by
      simp [isFreeItemLine, hattrs]
    by_cases hfree : attrs.any (fun a => a.key == "_FREE_ITEM" && a.value == "true")
    · rcases hfind : attrs.find? (fun x => x.key == "_FREE_ITEM_THRESHOLD") with _ | a
      · simp [shouldRemoveFreeItemLine, hattrs, hfree, hfind, hfreeEq]
      · simp only [shouldRemoveFreeItemLine, hattrs, hfree, hfind, hfreeEq]
        simp only [Bool.not_true, Bool.false_eq_true, if_false, Option.some.injEq]
        constructor
        · intro h
          obtain ⟨x, y, hsub, hparse, hlt⟩ := (jsLt_eq_true_iff _ _).mp h
          exact ⟨trivial, attrs, a, y, x, rfl, hfind, hparse, hsub, hlt⟩
        · rintro ⟨-, attrs', a', t, s, heq, hfind', hparse, hsub, hlt⟩
          cases heq
          rw [hfind] at hfind'
          cases hfind'
          exact (jsLt_eq_true_iff _ _).mpr ⟨s, t, hsub, hparse, hlt⟩
    · have hfree' : attrs.any (fun a => a.key == "_FREE_ITEM" && a.value == "true") = false := by
        simpa using hfree
      simp [shouldRemoveFreeItemLine, hattrs, hfree', hfreeEq]

/-! ## C7: resolver fallback and null behaviour -/

/-- C7: with a catalog present, the resolver (1) returns the product's
default (selected-or-first-available) variant whenever the given selector
matches no catalog variant of the resolved product, (2) returns null when the
catalog query throws, and (3) returns null only when the query throws, the
product is unresolvable, or the product has no available default variant (out
of stock). -/
theorem C7_resolver_fallback :
    (∀ (handle : String) (spec : Option String) (q : Catalog) (p : Product),
       q handle = .ok (some p) →
       p.variants.find? (fun variant => variant.selectedOptions.any (fun option =>
         option.name.toLower == "color" &&
         option.value.toLower == (spec.getD "").toLower)) = none →
       resolveProductVariant handle spec (some q) = p.selectedOrFirstAvailableVariant) ∧
    (∀ (handle : String) (spec : Option String) (q : Catalog),
       q handle = .error () → resolveProductVariant handle spec (some q) = none) ∧
    (∀ (handle : String) (spec : Option String) (q : Catalog),
       resolveProductVariant handle spec (some q) = none →
       q handle = .error () ∨ q handle = .ok none ∨
       ∃ p, q handle = .ok (some p) ∧ p.selectedOrFirstAvailableVariant = none) := by
  refine ⟨?_, ?_, ?_⟩
  · intro handle spec q p hq hfind
    by_cases hts : jsTruthyStr spec = true
    · simp [resolveProductVariant, hq, hts, hfind]
    · have hts' : jsTruthyStr spec = false := by simpa using hts
      simp [resolveProductVariant, hq, hts']
  · intro handle spec q hq
    simp [resolveProductVariant, hq]
  · intro handle spec q h
    rcases hq : q handle with u | op
    · cases u
      exact Or.inl rfl
    · rcases op with _ | p
      · exact Or.inr (Or.inl rfl)
      · refine Or.inr (Or.inr ⟨p, rfl, ?_⟩)
        rw [resolveProductVariant, hq] at h
        by_cases hts : jsTruthyStr spec = true
        · simp only [hts, Bool.not_true, Bool.false_eq_true, if_false] at h
          rcases hfind : p.variants.find? (fun variant => variant.selectedOptions.any
              (fun option => option.name.toLower == "color" &&
                option.value.toLower == (spec.getD "").toLower)) with _ | mv
          · rw [hfind] at h
            exact h
          · rw [hfind] at h
            cases h
        · have hts' : jsTruthyStr spec = false := by simpa using hts
          simp only [hts', Bool.not_false, if_true] at h
          exact h

/-- Witness for C7: a selector that matches nothing falls back to the default
variant, and a throwing catalog yields null. -/
theorem C7_witness :
    resolveProductVariant "black-sunnies" (some "chartreuse") (some demoCatalog) =
      bsProduct.selectedOrFirstAvailableVariant ∧
    resolveProductVariant "black-sunnies" none (some throwingCatalog) = none :=
  ⟨C7_resolver_fallback.1 "black-sunnies" (some "chartreuse") demoCatalog bsProduct
      (by with_unfolding_all rfl) (by with_unfolding_all rfl),
   C7_resolver_fallback.2.1 "black-sunnies" none throwingCatalog rfl⟩

/-! ## C9: only men-t-shirt counts for bundle validity -/

theorem foldl_bundleCountStep_skip (lines : List CartLine)
    (h : ∀ l ∈ lines, attrVal l "_BUNDLE_NAME" ≠ some "men-t-shirt") :
    ∀ acc, lines.foldl bundleCountStep acc = acc := by
  induction lines with
  | nil => intro acc; rfl
  | cons l rest ih =>
    intro acc
    have hstep : bundleCountStep acc l = acc := by
      unfold bundleCountStep
      rcases hattrs : l.attributes with _ | attrs
      · rfl
      · have hname : ((attrs.find? (fun a => a.key == "_BUNDLE_NAME")).map (·.value) ==
            some "men-t-shirt") = false := by
          have := h l (by simp)
          rw [attrVal, hattrs] at this
          simpa using this
        simp [hname]
    rw [List.foldl_cons, hstep]
    exact ih (fun x hx => h x (by simp [hx])) acc

/-- C9: a cart whose lines all carry a `_BUNDLE_NAME` other than
`men-t-shirt` (or none) never yields `hasValidBundles = true`, whatever the
bundle ids and quantities. -/
theorem C9_only_men_t_shirt (lines : List CartLine)
    (h : ∀ l ∈ lines, attrVal l "_BUNDLE_NAME" ≠ some "men-t-shirt") :
    (validateRemainingBundles lines).hasValidBundles = false := by
  rcases lines with _ | ⟨x, rest⟩
  · rfl
  · unfold validateRemainingBundles
    rw [foldl_bundleCountStep_skip (x :: rest) h []]
    simp

/-- Witness for C9: a quantity-3 women-t-shirt bundle group is not valid. -/
theorem C9_witness : (validateRemainingBundles [otherBundleLine]).hasValidBundles = false :=
  C9_only_men_t_shirt [otherBundleLine] (by decide)

/-! ## C2: bundle discount toggling -/

theorem discount_filter_any (l : List String) :
    (l.filter (fun c => !(c == "BUNDLE20"))).any (· == "BUNDLE20") = false := by
  induction l with
  | nil => rfl
  | cons c rest ih =>
    by_cases hc : (c == "BUNDLE20") = true
    · simp [List.filter_cons, hc, ih]
    · have hc' : (c == "BUNDLE20") = false := Bool.eq_false_iff.mpr hc
      simp [List.filter_cons, hc', ih]

theorem discount_filter_idem (l : List String) :
    (l.filter (fun c => !(c == "BUNDLE20"))).filter (fun c => !(c == "BUNDLE20")) =
      l.filter (fun c => !(c == "BUNDLE20")) := by
  rw [List.filter_filter]
  simp

theorem toggleBundleDiscount_spec (st : CartState) :
    ((toggleBundleDiscount st).discountCodes.any (· == "BUNDLE20") =
      (validateRemainingBundles st.lines).hasValidBundles) ∧
    ((toggleBundleDiscount st).discountCodes.filter (fun c => !(c == "BUNDLE20")) =
      st.discountCodes.filter (fun c => !(c == "BUNDLE20"))) ∧
    (toggleBundleDiscount st).lines = st.lines := by
  cases hhas : st.discountCodes.any (· == "BUNDLE20") <;>
    cases hshould : (validateRemainingBundles st.lines).hasValidBundles <;>
      simp [toggleBundleDiscount, hhas, hshould, discount_filter_any, discount_filter_idem,
        List.any_append, List.filter_append]

/-- C2 counterexample: adding a single men-t-shirt bundle line (no complete
bundle) to a cart carrying the discount SAVE10 makes the handler apply
BUNDLE20 — so the discount is present without any complete bundle group — and
replaces the other applied code. -/
theorem C2_counterexample :
    ((applyCartAction ⟨[], ["SAVE10"]⟩ (.linesAdd [mkBundleLine "b1" "g1" 1])).discountCodes =
      ["BUNDLE20"]) ∧
    (validateRemainingBundles
      (applyCartAction ⟨[], ["SAVE10"]⟩
        (.linesAdd [mkBundleLine "b1" "g1" 1])).lines).hasValidBundles = false := by
  decide

/-- C2 (amended): after a `LinesUpdate` or `LinesRemove` action the handler
leaves BUNDLE20 applied iff at least one complete bundle group exists in the
resulting lines, and preserves every other applied discount code; the
`LinesAdd` branch instead applies BUNDLE20 (replacing all other codes)
whenever any added line carries a `_BUNDLE_NAME` tag, regardless of
completeness — see the counterexample. -/
theorem C2_discount_toggle_amended (st : CartState) (op : CartOp)
    (h : (∃ u, op = CartOp.linesUpdate u) ∨ (∃ ids, op = CartOp.linesRemove ids)) :
    ((applyCartAction st op).discountCodes.any (· == "BUNDLE20") =
      (validateRemainingBundles (applyCartAction st op).lines).hasValidBundles) ∧
    ((applyCartAction st op).discountCodes.filter (fun c => !(c == "BUNDLE20")) =
      st.discountCodes.filter (fun c => !(c == "BUNDLE20"))) := by
  rcases h with ⟨u, rfl⟩ | ⟨ids, rfl⟩
  · obtain ⟨h1, h2, h3⟩ :=
      toggleBundleDiscount_spec { st with lines := u.foldl applyLineUpdate st.lines }
    constructor
    · show (toggleBundleDiscount { st with lines := u.foldl applyLineUpdate st.lines
        }).discountCodes.any (· == "BUNDLE20") =
        (validateRemainingBundles (toggleBundleDiscount { st with
          lines := u.foldl applyLineUpdate st.lines }).lines).hasValidBundles
      rw [h3]
      exact h1
    · exact h2
  · obtain ⟨h1, h2, h3⟩ :=
      toggleBundleDiscount_spec
        { st with lines := st.lines.filter (fun l => !(ids.contains l.id)) }
    constructor
    · show (toggleBundleDiscount { st with
          lines := st.lines.filter (fun l => !(ids.contains l.id)) }).discountCodes.any
            (· == "BUNDLE20") =
        (validateRemainingBundles (toggleBundleDiscount { st with
          lines := st.lines.filter (fun l => !(ids.contains l.id)) }).lines).hasValidBundles
      rw [h3]
      exact h1
    · exact h2

/-- Witness for C2 (amended): a no-op removal on a cart holding a complete
2+1 bundle group adds BUNDLE20 next to SAVE10. -/
theorem C2_amended_witness :
    ((applyCartAction ⟨[mkBundleLine "a" "g1" 2, mkBundleLine "b" "g1" 1], ["SAVE10"]⟩
        (.linesRemove ["zzz"])).discountCodes.any (· == "BUNDLE20") =
      (validateRemainingBundles
        (applyCartAction ⟨[mkBundleLine "a" "g1" 2, mkBundleLine "b" "g1" 1], ["SAVE10"]⟩
          (.linesRemove ["zzz"])).lines).hasValidBundles) ∧
    ((applyCartAction ⟨[mkBundleLine "a" "g1" 2, mkBundleLine "b" "g1" 1], ["SAVE10"]⟩
        (.linesRemove ["zzz"])).discountCodes.filter (fun c => !(c == "BUNDLE20")) =
      ["SAVE10"].filter (fun c => !(c == "BUNDLE20"))) :=
  C2_discount_toggle_amended ⟨[mkBundleLine "a" "g1" 2, mkBundleLine "b" "g1" 1], ["SAVE10"]⟩
    (.linesRemove ["zzz"]) (Or.inr ⟨["zzz"], rfl⟩)

/-! ## C8: quantity-summed bundle completeness -/

theorem foldl_add_jsQty (lines : List CartLine) :
    ∀ a : Nat, lines.foldl (fun sum line => sum + jsQty line) a = a + (lines.map jsQty).sum := by
  induction lines with
  | nil => intro a; simp
  | cons l rest ih =>
    intro a
    rw [List.foldl_cons, ih (a + jsQty l)]
    simp [add_assoc]

theorem assocAdd_nil (b : String) (q : Nat) : assocAdd [] b q = [(b, q)] := rfl

theorem assocAdd_same (b : String) (c q : Nat) : assocAdd [(b, c)] b q = [(b, c + q)] := by
  simp [assocAdd]

theorem bundleCountStep_homog {l : CartLine} {b : String} (hb : b ≠ "")
    (hid : attrVal l "_BUNDLE_ID" = some b)
    (hname : attrVal l "_BUNDLE_NAME" = some "men-t-shirt")
    (acc : List (String × Nat)) :
    bundleCountStep acc l = assocAdd acc b (jsQty l) := by
  rcases hattrs : l.attributes with _ | attrs
  · rw [attrVal, hattrs] at hid
    simp at hid
  · rw [attrVal, hattrs, Option.getD_some] at hid hname
    have hbne : (b == "") = false := beq_eq_false_iff_ne.mpr hb
    simp [bundleCountStep, hattrs, hid, hname, jsTruthyStr, hbne]

theorem foldl_bundleCountStep_homog (b : String) (hb : b ≠ "") (lines : List CartLine)
    (h : ∀ l ∈ lines, attrVal l "_BUNDLE_ID" = some b ∧
      attrVal l "_BUNDLE_NAME" = some "men-t-shirt") :
    ∀ c : Nat, lines.foldl bundleCountStep [(b, c)] = [(b, c + (lines.map jsQty).sum)] := by
  induction lines with
  | nil => intro c; simp
  | cons l rest ih =>
    intro c
    obtain ⟨hid, hname⟩ := h l (by simp)
    rw [List.foldl_cons, bundleCountStep_homog hb hid hname, assocAdd_same,
      ih (fun x hx => h x (by simp [hx])) (c + jsQty l)]
    simp [add_assoc]

/-- C8: for a nonempty set of lines that all share one (truthy) `_BUNDLE_ID`
under the bundle name `men-t-shirt` and have positive quantities, the group is
reported valid by `validateRemainingBundles`, and complete by the display
component, exactly when the sum of the lines' quantities is 3 — quantity
summed, not line counted. -/
theorem C8_bundle_completeness (b : String) (lines : List CartLine)
    (hb : b ≠ "") (hne : lines ≠ [])
    (h : ∀ l ∈ lines, attrVal l "_BUNDLE_ID" = some b ∧
      attrVal l "_BUNDLE_NAME" = some "men-t-shirt" ∧
      ∃ q, l.quantity = some q ∧ 0 < q) :
    (((validateRemainingBundles lines).hasValidBundles = true) ↔
      (lines.map (fun l => l.quantity.getD 0)).sum = 3) ∧
    ((isCompleteBundle lines = true) ↔
      (lines.map (fun l => l.quantity.getD 0)).sum = 3) := by
  have hq : ∀ l ∈ lines, jsQty l = l.quantity.getD 0 := by
    intro l hl
    obtain ⟨-, -, q, hql, hq0⟩ := h l hl
    rw [jsQty, hql, Option.getD_some]
    have : (q == 0) = false := beq_eq_false_iff_ne.mpr (Nat.pos_iff_ne_zero.mp hq0)
    simp [this]
  have hmapeq : lines.map jsQty = lines.map (fun l => l.quantity.getD 0) :=
    List.map_congr_left hq
  rcases lines with _ | ⟨x, rest⟩
  · exact absurd rfl hne
  · obtain ⟨hidx, hnamex, -⟩ := h x (by simp)
    have hkey : (validateRemainingBundles (x :: rest)).hasValidBundles =
        ((jsQty x + (rest.map jsQty).sum) == 3) := by
      unfold validateRemainingBundles
      rw [List.foldl_cons, bundleCountStep_homog hb hidx hnamex, assocAdd_nil,
        foldl_bundleCountStep_homog b hb rest
          (fun l hl => ⟨(h l (by simp [hl])).1, (h l (by simp [hl])).2.1⟩) (jsQty x)]
      by_cases hS : ((jsQty x + (rest.map jsQty).sum) == 3) = true
      · simp [List.filter_cons, hS]
      · have hS' := Bool.eq_false_iff.mpr hS
        simp [List.filter_cons, hS']
    have hsum : ((x :: rest).map (fun l => l.quantity.getD 0)).sum =
        jsQty x + (rest.map jsQty).sum := by
      rw [← hmapeq]
      simp
    constructor
    · rw [hkey, hsum]
      exact ⟨fun hbq => beq_iff_eq.mp hbq, fun he => by simp [he]⟩
    · rw [isCompleteBundle, totalItemsInBundle, foldl_add_jsQty, Nat.zero_add, hsum]
      constructor
      · intro hbq
        simpa using beq_iff_eq.mp hbq
      · intro he
        simp only [List.map_cons, List.sum_cons] at he
        simp [he]

/-- Witness for C8: one quantity-2 line plus one quantity-1 line under one
bundle id form a valid and complete bundle. -/
theorem C8_witness :
    (validateRemainingBundles
      [mkBundleLine "a" "g1" 2, mkBundleLine "b" "g1" 1]).hasValidBundles = true ∧
    isCompleteBundle [mkBundleLine "a" "g1" 2, mkBundleLine "b" "g1" 1] = true := by
  have h := C8_bundle_completeness "g1" [mkBundleLine "a" "g1" 2, mkBundleLine "b" "g1" 1]
    (by decide) (by decide)
    (by
      intro l hl
      simp only [List.mem_cons, List.not_mem_nil, or_false] at hl
      rcases hl with rfl | rfl
      · exact ⟨by decide, by decide, 2, rfl, by decide⟩
      · exact ⟨by decide, by decide, 1, rfl, by decide⟩)
  exact ⟨h.1.mpr (by decide), h.2.mpr (by decide)⟩

/-! ## C10: grouping places lines by their bundle tags -/

theorem truthy_attrVal_getD {o : Option String} (h : jsTruthyStr o = true) :
    o = some (o.getD "") := by
  cases o with
  | none => simp [jsTruthyStr] at h
  | some s => rfl

theorem hasAttrKey_of_truthy {l : CartLine} {k : String}
    (h : jsTruthyStr (attrVal l k) = true) : hasAttrKey l k = true := by
  rcases hf : (l.attributes.getD []).find? (fun a => a.key == k) with _ | a
  · rw [attrVal, hf] at h
    simp [jsTruthyStr] at h
  · have hmem := List.mem_of_find?_eq_some hf
    have hpred := @List.find?_some Attr (fun x => x.key == k) a _ hf
    exact List.any_eq_true.mpr ⟨a, hmem, hpred⟩

theorem assocPushLine_inv (m : List (String × BundleGroup)) (bid bname : String)
    (line : CartLine)
    (hm : ∀ e ∈ m, e.2.bundleId = e.1 ∧ ∀ l ∈ e.2.lines,
      jsTruthyStr (attrVal l "_BUNDLE_NAME") = true ∧
      jsTruthyStr (attrVal l "_BUNDLE_ID") = true ∧
      attrVal l "_BUNDLE_ID" = some e.1)
    (hn : jsTruthyStr (attrVal line "_BUNDLE_NAME") = true)
    (hi : jsTruthyStr (attrVal line "_BUNDLE_ID") = true)
    (hbid : attrVal line "_BUNDLE_ID" = some bid) :
    ∀ e ∈ assocPushLine m bid bname line, e.2.bundleId = e.1 ∧ ∀ l ∈ e.2.lines,
      jsTruthyStr (attrVal l "_BUNDLE_NAME") = true ∧
      jsTruthyStr (attrVal l "_BUNDLE_ID") = true ∧
      attrVal l "_BUNDLE_ID" = some e.1 := by
  intro e he
  unfold assocPushLine at he
  by_cases hany : (m.any (fun e => e.1 == bid)) = true
  · rw [if_pos hany] at he
    obtain ⟨e0, he0, heq⟩ := List.mem_map.mp he
    by_cases hkey : (e0.1 == bid) = true
    · rw [if_pos hkey] at heq
      obtain ⟨hbkey, hblines⟩ := hm e0 he0
      subst heq
      refine ⟨hbkey, ?_⟩
      intro l hl
      rcases List.mem_append.mp hl with hold | hnew
      · exact hblines l hold
      · have : l = line := by simpa using hnew
        subst this
        refine ⟨hn, hi, ?_⟩
        rw [hbid]
        have : e0.1 = bid := beq_iff_eq.mp hkey
        rw [this]
    · rw [if_neg (by simpa using hkey)] at heq
      subst heq
      exact hm e0 he0
  · rw [if_neg (by simpa using hany)] at he
    rcases List.mem_append.mp he with hold | hnew
    · exact hm e hold
    · have he' := List.mem_singleton.mp hnew
      subst he'
      refine ⟨rfl, ?_⟩
      intro l hl
      have hl' : l = line := List.mem_singleton.mp hl
      subst hl'
      exact ⟨hn, hi, hbid⟩

theorem foldl_groupStep_inv (lines : List CartLine) :
    ∀ acc : List (String × BundleGroup) × List CartLine,
      (∀ e ∈ acc.1, e.2.bundleId = e.1 ∧ ∀ l ∈ e.2.lines,
        jsTruthyStr (attrVal l "_BUNDLE_NAME") = true ∧
        jsTruthyStr (attrVal l "_BUNDLE_ID") = true ∧
        attrVal l "_BUNDLE_ID" = some e.1) →
      ∀ e ∈ (lines.foldl groupStep acc).1, e.2.bundleId = e.1 ∧ ∀ l ∈ e.2.lines,
        jsTruthyStr (attrVal l "_BUNDLE_NAME") = true ∧
        jsTruthyStr (attrVal l "_BUNDLE_ID") = true ∧
        attrVal l "_BUNDLE_ID" = some e.1 := by
  induction lines with
  | nil => intro acc h; exact h
  | cons x rest ih =>
    intro acc hacc
    rw [List.foldl_cons]
    apply ih
    unfold groupStep
    by_cases hn : jsTruthyStr (attrVal x "_BUNDLE_NAME") = true
    · by_cases hi : jsTruthyStr (attrVal x "_BUNDLE_ID") = true
      · rw [if_pos (by simp [hn, hi])]
        exact assocPushLine_inv acc.1 _ _ x hacc hn hi
          (truthy_attrVal_getD hi)
      · rw [if_neg (by simp [Bool.eq_false_iff.mpr hi])]
        exact hacc
    · rw [if_neg (by simp [Bool.eq_false_iff.mpr hn])]
      exact hacc

theorem foldl_groupStep_ind_mono (lines : List CartLine) :
    ∀ acc : List (String × BundleGroup) × List CartLine, ∀ l ∈ acc.2,
      l ∈ (lines.foldl groupStep acc).2 := by
  induction lines with
  | nil => intro acc l hl; exact hl
  | cons x rest ih =>
    intro acc l hl
    rw [List.foldl_cons]
    apply ih
    unfold groupStep
    by_cases hcond : (jsTruthyStr (attrVal x "_BUNDLE_NAME") &&
        jsTruthyStr (attrVal x "_BUNDLE_ID")) = true
    · rw [if_pos hcond]
      exact hl
    · rw [if_neg (by simpa using hcond)]
      exact List.mem_append_left _ hl

theorem foldl_groupStep_ind_mem (lines : List CartLine) :
    ∀ acc : List (String × BundleGroup) × List CartLine, ∀ l ∈ lines,
      (jsTruthyStr (attrVal l "_BUNDLE_NAME") &&
        jsTruthyStr (attrVal l "_BUNDLE_ID")) = false →
      l ∈ (lines.foldl groupStep acc).2 := by
  induction lines with
  | nil => intro acc l hl; simp at hl
  | cons x rest ih =>
    intro acc l hl hcond
    rw [List.foldl_cons]
    rcases List.mem_cons.mp hl with rfl | hl'
    · apply foldl_groupStep_ind_mono
      unfold groupStep
      rw [if_neg (by simp [hcond])]
      exact List.mem_append_right _ (by simp)
    · exact ih _ l hl' hcond

/-- C10: every line of every displayed bundle group carries both bundle tags
and its `_BUNDLE_ID` value is the group's key; a line carrying exactly one of
the two tags is placed among the ungrouped individual lines and belongs to no
group. -/
theorem C10_tag_placement (lines : List CartLine) :
    (∀ g ∈ (groupCartLines lines).1, ∀ l ∈ g.lines,
       hasAttrKey l "_BUNDLE_NAME" = true ∧ hasAttrKey l "_BUNDLE_ID" = true ∧
       attrVal l "_BUNDLE_ID" = some g.bundleId) ∧
    (∀ l ∈ lines,
       ((hasAttrKey l "_BUNDLE_NAME" = true ∧ hasAttrKey l "_BUNDLE_ID" = false) ∨
        (hasAttrKey l "_BUNDLE_NAME" = false ∧ hasAttrKey l "_BUNDLE_ID" = true)) →
       l ∈ (groupCartLines lines).2 ∧ ∀ g ∈ (groupCartLines lines).1, l ∉ g.lines) := by
  have hinv := foldl_groupStep_inv lines ([], []) (by intro e he; simp at he)
  have hmain : ∀ g ∈ (groupCartLines lines).1, ∀ l ∈ g.lines,
      hasAttrKey l "_BUNDLE_NAME" = true ∧ hasAttrKey l "_BUNDLE_ID" = true ∧
      attrVal l "_BUNDLE_ID" = some g.bundleId := by
    intro g hg l hl
    obtain ⟨e, he, heq⟩ := List.mem_map.mp hg
    subst heq
    obtain ⟨hkey, hlines⟩ := hinv e he
    obtain ⟨hn, hi, hid⟩ := hlines l hl
    refine ⟨hasAttrKey_of_truthy hn, hasAttrKey_of_truthy hi, ?_⟩
    show attrVal l "_BUNDLE_ID" = some (summarizeBundle e.2).bundleId
    have hbkeep : (summarizeBundle e.2).bundleId = e.2.bundleId := rfl
    rw [hbkeep, hkey]
    exact hid
  refine ⟨hmain, ?_⟩
  intro l hl hone
  have hcond : (jsTruthyStr (attrVal l "_BUNDLE_NAME") &&
      jsTruthyStr (attrVal l "_BUNDLE_ID")) = false := by
    rcases hone with ⟨-, hid⟩ | ⟨hn, -⟩
    · have : jsTruthyStr (attrVal l "_BUNDLE_ID") = false := by
        by_cases h : jsTruthyStr (attrVal l "_BUNDLE_ID") = true
        · rw [hasAttrKey_of_truthy h] at hid
          cases hid
        · exact Bool.eq_false_iff.mpr h
      simp [this]
    · have : jsTruthyStr (attrVal l "_BUNDLE_NAME") = false := by
        by_cases h : jsTruthyStr (attrVal l "_BUNDLE_NAME") = true
        · rw [hasAttrKey_of_truthy h] at hn
          cases hn
        · exact Bool.eq_false_iff.mpr h
      simp [this]
  refine ⟨foldl_groupStep_ind_mem lines ([], []) l hl hcond, ?_⟩
  intro g hg hmem
  obtain ⟨hn, hi, -⟩ := hmain g hg l hmem
  rcases hone with ⟨-, hid⟩ | ⟨hn', -⟩
  · rw [hi] at hid
    cases hid
  · rw [hn] at hn'
    cases hn'

/-- Witness for C10: a line carrying only `_BUNDLE_NAME` stays among the
individual lines and is in no bundle group. -/
theorem C10_witness :
    nameOnlyLine ∈ (groupCartLines [nameOnlyLine, mkBundleLine "a" "g1" 1]).2 ∧
    ∀ g ∈ (groupCartLines [nameOnlyLine, mkBundleLine "a" "g1" 1]).1,
      nameOnlyLine ∉ g.lines :=
  (C10_tag_placement [nameOnlyLine, mkBundleLine "a" "g1" 1]).2 nameOnlyLine (by decide)
    (Or.inl ⟨by decide, by decide⟩)

/-! ## C5: free-item add idempotency guard -/

theorem processFreeItems_single (m : MilestoneProgress) (cart : Cart) (sub : JSNum)
    (sf : Option Catalog) :
    (processFreeItems [m] cart sub sf).itemsToAdd = processFreeItemsStep cart sf [] m := rfl

theorem processFreeItemsStep_skip_existing (cart : Cart) (sf : Option Catalog)
    (acc : List AddItem) (m : MilestoneProgress)
    (hex : ((cart.lines.getD []).any (fun line =>
      jsOptStrEq line.productHandle m.handle && isFreeItemLine line)) = true) :
    processFreeItemsStep cart sf acc m = acc := by
  cases htr : jsTruthyStr m.handle <;> simp [processFreeItemsStep, htr, hex]

theorem processFreeItemsStep_nil_length (cart : Cart) (sf : Option Catalog)
    (m : MilestoneProgress) : (processFreeItemsStep cart sf [] m).length ≤ 1 := by
  simp only [processFreeItemsStep]
  repeat' split
  all_goals simp

theorem countFreeHandle_le_after (m : MilestoneProgress) (h : String) (cart : Cart)
    (sub : JSNum) (sf : Option Catalog) (hm : m.handle = some h) :
    countFreeHandle h ((reconcileOnce m cart sub sf).lines.getD []) ≤
      max (countFreeHandle h (cart.lines.getD [])) 1 := by
  have hlines : (reconcileOnce m cart sub sf).lines.getD [] =
      applyLineOps (cart.lines.getD []) (processFreeItems [m] cart sub sf).itemsToRemove
        (processFreeItems [m] cart sub sf).itemsToAdd := rfl
  rw [hlines]
  unfold applyLineOps countFreeHandle
  rw [List.countP_append]
  by_cases hex : ((cart.lines.getD []).any (fun line =>
      jsOptStrEq line.productHandle m.handle && isFreeItemLine line)) = true
  · have hadds : (processFreeItems [m] cart sub sf).itemsToAdd = [] := by
      rw [processFreeItems_single]
      exact processFreeItemsStep_skip_existing cart sf [] m hex
    rw [hadds]
    simp only [List.map_nil, List.countP_nil, Nat.add_zero]
    exact le_trans ((List.filter_sublist _).countP_le _) (le_max_left _ _)
  · have hzero : (cart.lines.getD []).countP (fun l =>
        jsOptStrEq l.productHandle (some h) && isFreeItemLine l) = 0 := by
      rw [List.countP_eq_zero]
      intro a ha hpa
      rw [← hm] at hpa
      exact hex (List.any_eq_true.mpr ⟨a, ha, hpa⟩)
    have hkept : (List.filter
        (fun l => !((processFreeItems [m] cart sub sf).itemsToRemove.contains l.id))
        (cart.lines.getD [])).countP
          (fun l => jsOptStrEq l.productHandle (some h) && isFreeItemLine l) = 0 :=
      Nat.le_zero.mp (hzero ▸ (List.filter_sublist _).countP_le _)
    have haddlen : ((processFreeItems [m] cart sub sf).itemsToAdd.map appliedFreeLine).countP
        (fun l => jsOptStrEq l.productHandle (some h) && isFreeItemLine l) ≤ 1 := by
      refine le_trans (List.countP_le_length _) ?_
      rw [List.length_map, processFreeItems_single]
      exact processFreeItemsStep_nil_length cart sf m
    have : (List.filter
        (fun l => !((processFreeItems [m] cart sub sf).itemsToRemove.contains l.id))
        (cart.lines.getD [])).countP
          (fun l => jsOptStrEq l.productHandle (some h) && isFreeItemLine l) +
        ((processFreeItems [m] cart sub sf).itemsToAdd.map appliedFreeLine).countP
          (fun l => jsOptStrEq l.productHandle (some h) && isFreeItemLine l) ≤ 1 := by
      omega
    exact le_trans this (le_max_right _ _)

/-- C5: (1) when a free-tagged line for the milestone's product handle is
already in the cart and not marked for removal, the addition step emits no
add; (2) two reconciliation rounds for the same milestone never leave more
than one free line for its product handle in the cart. -/
theorem C5_free_item_idempotency (m : MilestoneProgress) (h : String) (cart : Cart)
    (sub : JSNum) (sf : Option Catalog) (hm : m.handle = some h) :
    ((∃ L ∈ cart.lines.getD [], isFreeItemLine L = true ∧ L.productHandle = some h ∧
        shouldRemoveFreeItemLine L sub = false) →
      (processFreeItems [m] cart sub sf).itemsToAdd = []) ∧
    (countFreeHandle h (cart.lines.getD []) ≤ 1 →
      countFreeHandle h
        ((reconcileOnce m (reconcileOnce m cart sub sf) sub sf).lines.getD []) ≤ 1) := by
  constructor
  · rintro ⟨L, hL, hfree, hhandle, -⟩
    have hex : ((cart.lines.getD []).any (fun line =>
        jsOptStrEq line.productHandle m.handle && isFreeItemLine line)) = true :=
      List.any_eq_true.mpr ⟨L, hL, by simp [jsOptStrEq, hhandle, hm, hfree]⟩
    rw [processFreeItems_single]
    exact processFreeItemsStep_skip_existing cart sf [] m hex
  · intro hc0
    have h1 := countFreeHandle_le_after m h cart sub sf hm
    have h2 := countFreeHandle_le_after m h (reconcileOnce m cart sub sf) sub sf hm
    rw [Nat.max_eq_right hc0] at h1
    rw [Nat.max_eq_right h1] at h2
    exact h2

/-- Witness for C5: two rounds for the achieved black-sunnies milestone on an
empty cart leave at most one black-sunnies free line. -/
theorem C5_witness :
    countFreeHandle "black-sunnies"
      ((reconcileOnce bsMilestoneProgress
        (reconcileOnce bsMilestoneProgress ⟨some [], none⟩ (some 120) (some demoCatalog))
        (some 120) (some demoCatalog)).lines.getD []) ≤ 1 :=
  (C5_free_item_idempotency bsMilestoneProgress "black-sunnies" ⟨some [], none⟩ (some 120)
    (some demoCatalog) rfl).2 (by decide)

/-! ## C1: full-pass idempotence -/

theorem applyLineOps_nil (lines : List CartLine) : applyLineOps lines [] [] = lines := by
  unfold applyLineOps
  rw [List.map_nil, List.append_nil]
  exact List.filter_eq_self.mpr (fun a _ => rfl)

theorem subtotal_eq_foldl_getD (cart : Cart) :
    calculateSubtotalExcludingFreeItems cart =
      (cart.lines.getD []).foldl subtotalStep (some 0) := by
  rcases hc : cart.lines with _ | nodes <;> simp [calculateSubtotalExcludingFreeItems, hc]

theorem calculateCartPerksState_congr (c1 c2 : Cart) (v : CartPerksVariant)
    (h : calculateSubtotalExcludingFreeItems c1 = calculateSubtotalExcludingFreeItems c2) :
    calculateCartPerksState c1 v = calculateCartPerksState c2 v := by
  unfold calculateCartPerksState
  rw [h]

theorem find?_map_upsert (attrs : List Attr) (k v : String)
    (hany : (attrs.any (fun a => a.key == k)) = true) :
    (attrs.map (fun a => if a.key == k then (⟨k, v⟩ : Attr) else a)).find?
      (fun a => a.key == k) = some ⟨k, v⟩ := by
  induction attrs with
  | nil => simp at hany
  | cons a rest ih =>
    rw [List.map_cons]
    by_cases hk : (a.key == k) = true
    · rw [if_pos hk, List.find?_cons_of_pos _ (by simp)]
    · rw [if_neg (by simpa using hk), List.find?_cons_of_neg _ (by simpa using hk)]
      apply ih
      rcases List.any_eq_true.mp hany with ⟨x, hx, hpx⟩
      rcases List.mem_cons.mp hx with rfl | hx'
      · exact absurd hpx (by simpa using hk)
      · exact List.any_eq_true.mpr ⟨x, hx', hpx⟩

theorem find?_append_none {p : Attr → Bool} (l₁ l₂ : List Attr)
    (h : l₁.find? p = none) : (l₁ ++ l₂).find? p = l₂.find? p := by
  induction l₁ with
  | nil => rfl
  | cons a rest ih =>
    by_cases hpa : p a = true
    · rw [List.find?_cons_of_pos _ hpa] at h
      cases h
    · rw [List.find?_cons_of_neg _ (by simpa using hpa)] at h
      rw [List.cons_append, List.find?_cons_of_neg _ (by simpa using hpa)]
      exact ih h

theorem find?_upsertAttr (attrs : List Attr) (k v : String) :
    (upsertAttr attrs k v).find? (fun a => a.key == k) = some ⟨k, v⟩ := by
  unfold upsertAttr
  by_cases hany : (attrs.any (fun a => a.key == k)) = true
  · rw [if_pos hany]
    exact find?_map_upsert attrs k v hany
  · rw [if_neg hany, find?_append_none]
    · rw [List.find?_cons_of_pos _ (by simp)]
    · rw [List.find?_eq_none]
      intro a ha hpa
      exact hany (List.any_eq_true.mpr ⟨a, ha, hpa⟩)

theorem needsShippingUpdate_after_apply (cart : Cart) (b : Bool) (plan : CartPerksPlan)
    (hplan : plan.attributeUpdate = if needsShippingUpdate cart b then some b else none) :
    needsShippingUpdate (applyCartPerksPlan cart plan) b = false := by
  have hattr : (applyCartPerksPlan cart plan).attributes =
      match plan.attributeUpdate with
      | none => cart.attributes
      | some bb => some (upsertAttr (cart.attributes.getD []) "__FREE_SHIPPING"
          (if bb then "true" else "false")) := rfl
  by_cases hneed : needsShippingUpdate cart b = true
  · rw [if_pos hneed] at hplan
    show needsShippingUpdate (applyCartPerksPlan cart plan) b = false
    simp only [needsShippingUpdate, hattr, hplan, Option.getD_some]
    rw [find?_upsertAttr]
    cases b <;> simp
  · rw [if_neg hneed] at hplan
    show needsShippingUpdate (applyCartPerksPlan cart plan) b = false
    simp only [needsShippingUpdate, hattr, hplan]
    exact Bool.eq_false_iff.mpr hneed

theorem jsGe_eq_true_iff (a b : JSNum) :
    jsGe a b = true ↔ ∃ x y, a = some x ∧ b = some y ∧ y ≤ x := by
  cases a <;> cases b <;> simp [jsGe]

theorem variants_threshold_roundtrip (variant : CartPerksVariant) :
    ∀ m ∈ VARIANTS variant, parseFloatJS (Nat.repr m.threshold) = some (m.threshold : ℚ) := by
  cases variant <;> with_unfolding_all decide

theorem state_subtotal (cart : Cart) (variant : CartPerksVariant) :
    (calculateCartPerksState cart variant).subtotal =
      calculateSubtotalExcludingFreeItems cart := rfl

theorem mem_milestones_spec (cart : Cart) (variant : CartPerksVariant) :
    ∀ mp ∈ (calculateCartPerksState cart variant).milestones,
      mp.toMilestone ∈ VARIANTS variant ∧
      mp.achieved = jsGe (calculateSubtotalExcludingFreeItems cart)
        (some (mp.threshold : ℚ)) := by
  intro mp hmp
  simp only [calculateCartPerksState, List.mem_map] at hmp
  obtain ⟨m, hm, rfl⟩ := hmp
  exact ⟨hm, rfl⟩

theorem shouldRemove_isFree {l : CartLine} {sub : JSNum}
    (h : shouldRemoveFreeItemLine l sub = true) : isFreeItemLine l = true := by
  unfold shouldRemoveFreeItemLine at h
  rcases hattrs : l.attributes with _ | attrs
  · simp [hattrs] at h
  · simp only [hattrs] at h
    by_cases hfree : (attrs.any (fun a => a.key == "_FREE_ITEM" && a.value == "true")) = true
    · simp [isFreeItemLine, hattrs, hfree]
    · rw [if_pos (show (!(attrs.any fun a => a.key == "_FREE_ITEM" && a.value == "true")) = true
          by simp [Bool.eq_false_iff.mpr hfree])] at h
      cases h

theorem filter_remove_ids (nodes : List CartLine) (sub : JSNum)
    (hids : (nodes.map (·.id)).Nodup) :
    nodes.filter (fun l => !((getFreeItemsToRemove nodes sub).contains l.id)) =
      nodes.filter (fun l => !(shouldRemoveFreeItemLine l sub)) := by
  apply List.filter_congr
  intro l hl
  have hcm : (getFreeItemsToRemove nodes sub).contains l.id = shouldRemoveFreeItemLine l sub := by
    by_cases hrem : shouldRemoveFreeItemLine l sub = true
    · rw [hrem]
      exact List.elem_iff.mpr
        (List.mem_map.mpr ⟨l, List.mem_filter.mpr ⟨hl, hrem⟩, rfl⟩)
    · rw [Bool.eq_false_iff.mpr hrem]
      rcases hc : (getFreeItemsToRemove nodes sub).contains l.id with _ | _
      · rfl
      · exfalso
        obtain ⟨l', hl', hid⟩ := List.mem_map.mp (List.elem_iff.mp hc)
        obtain ⟨hl'nodes, hl'rem⟩ := List.mem_filter.mp hl'
        have : l' = l := List.inj_on_of_nodup_map hids hl'nodes hl hid
        subst this
        exact hrem hl'rem
  rw [hcm]

theorem subtotal_applyLineOps (nodes : List CartLine) (sub : JSNum) (adds : List AddItem)
    (hids : (nodes.map (·.id)).Nodup)
    (hfreeAdds : ∀ item ∈ adds, isFreeItemLine (appliedFreeLine item) = true) :
    (applyLineOps nodes (getFreeItemsToRemove nodes sub) adds).foldl subtotalStep (some 0) =
      nodes.foldl subtotalStep (some 0) := by
  unfold applyLineOps
  rw [filter_remove_ids nodes sub hids, List.foldl_append]
  rw [foldl_subtotalStep_all_free _ (by
    intro l hlm
    obtain ⟨item, hitem, rfl⟩ := List.mem_map.mp hlm
    exact hfreeAdds item hitem)]
  have hfilters : (nodes.filter (fun l => !(shouldRemoveFreeItemLine l sub))).filter
      (fun l => !isFreeItemLine l) = nodes.filter (fun l => !isFreeItemLine l) := by
    rw [List.filter_filter]
    apply List.filter_congr
    intro l _
    by_cases hf : isFreeItemLine l = true
    · simp [hf]
    · have hf' : isFreeItemLine l = false := Bool.eq_false_iff.mpr hf
      have hnr : shouldRemoveFreeItemLine l sub = false := by
        rcases hx : shouldRemoveFreeItemLine l sub with _ | _
        · rfl
        · exact absurd (shouldRemove_isFree hx) hf
      simp [hf', hnr]
  calc (nodes.filter (fun l => !(shouldRemoveFreeItemLine l sub))).foldl subtotalStep (some 0)
      = ((nodes.filter (fun l => !(shouldRemoveFreeItemLine l sub))).filter
          (fun l => !isFreeItemLine l)).foldl subtotalStep (some 0) :=
        foldl_subtotalStep_filter_nonfree _ _
    _ = (nodes.filter (fun l => !isFreeItemLine l)).foldl subtotalStep (some 0) := by
        rw [hfilters]
    _ = nodes.foldl subtotalStep (some 0) := (foldl_subtotalStep_filter_nonfree _ _).symm

theorem appliedFreeLine_isFree (item : AddItem)
    (h : item.line = createFreeItemLine item.variant item.milestone) :
    isFreeItemLine (appliedFreeLine item) = true := by
  simp [appliedFreeLine, isFreeItemLine, h, createFreeItemLine]

theorem appliedFreeLine_not_removed (item : AddItem) (s : ℚ)
    (hline : item.line = createFreeItemLine item.variant item.milestone)
    (hparse : parseFloatJS (Nat.repr item.milestone.threshold) =
      some (item.milestone.threshold : ℚ))
    (hach : (item.milestone.threshold : ℚ) ≤ s) :
    shouldRemoveFreeItemLine (appliedFreeLine item) (some s) = false := by
  have hattrs : (appliedFreeLine item).attributes = some (createFreeItemLine
      item.variant item.milestone).attributes := by
    simp [appliedFreeLine, hline]
  unfold shouldRemoveFreeItemLine
  rw [hattrs]
  simp only [createFreeItemLine]
  simp only [List.any_cons, List.find?_cons]
  simp [jsLt, hparse, not_lt.mpr hach]

theorem processFreeItemsStep_superset (cart : Cart) (sf : Option Catalog)
    (acc : List AddItem) (m : MilestoneProgress) :
    ∀ x ∈ acc, x ∈ processFreeItemsStep cart sf acc m := by
  intro x hx
  simp only [processFreeItemsStep]
  repeat' split
  all_goals first
    | exact hx
    | exact List.mem_append_left _ hx

theorem foldl_addStep_mono (cart : Cart) (sf : Option Catalog) (req : List MilestoneProgress) :
    ∀ (acc : List AddItem) (item : AddItem), item ∈ acc →
      item ∈ req.foldl (processFreeItemsStep cart sf) acc := by
  induction req with
  | nil => intro acc item h; exact h
  | cons m rest ih =>
    intro acc item h
    rw [List.foldl_cons]
    exact ih _ item (processFreeItemsStep_superset cart sf acc m item h)

theorem foldl_addStep_mem (cart : Cart) (sf : Option Catalog) (req : List MilestoneProgress) :
    ∀ (acc : List AddItem), ∀ item ∈ req.foldl (processFreeItemsStep cart sf) acc,
      item ∈ acc ∨
      (item.milestone ∈ req ∧ item.line = createFreeItemLine item.variant item.milestone ∧
        jsTruthyStr item.milestone.handle = true ∧ item.variant.availableForSale = true ∧
        resolveProductVariant (item.milestone.handle.getD "") item.milestone.variant sf =
          some item.variant) := by
  induction req with
  | nil => intro acc item h; exact Or.inl h
  | cons m rest ih =>
    intro acc item h
    rw [List.foldl_cons] at h
    rcases ih _ item h with hacc | hrest
    · simp only [processFreeItemsStep] at hacc
      by_cases ht : (!(jsTruthyStr m.handle)) = true
      · rw [if_pos ht] at hacc
        exact Or.inl hacc
      · rw [if_neg ht] at hacc
        by_cases hex : ((cart.lines.getD []).any fun line =>
            jsOptStrEq line.productHandle m.handle && isFreeItemLine line) = true
        · rw [if_pos hex] at hacc
          exact Or.inl hacc
        · rw [if_neg hex] at hacc
          rcases hres : resolveProductVariant (m.handle.getD "") m.variant sf with _ | v
          · simp only [hres] at hacc
            exact Or.inl hacc
          · simp only [hres] at hacc
            by_cases hav : (!v.availableForSale) = true
            · rw [if_pos hav] at hacc
              exact Or.inl hacc
            · rw [if_neg hav] at hacc
              rcases List.mem_append.mp hacc with h1 | h2
              · exact Or.inl h1
              · have heq : item = ⟨m, v, createFreeItemLine v m⟩ := List.mem_singleton.mp h2
                subst heq
                refine Or.inr ⟨by simp, rfl, by simpa using ht, by simpa using hav, hres⟩
    · exact Or.inr ⟨List.mem_cons_of_mem m hrest.1, hrest.2⟩

theorem foldl_addStep_pushed (cart : Cart) (sf : Option Catalog)
    (req : List MilestoneProgress) (m : MilestoneProgress) (v : ProductVariant)
    (hm : m ∈ req)
    (h1 : jsTruthyStr m.handle = true)
    (h2 : ((cart.lines.getD []).any fun line =>
      jsOptStrEq line.productHandle m.handle && isFreeItemLine line) = false)
    (h3 : resolveProductVariant (m.handle.getD "") m.variant sf = some v)
    (h4 : v.availableForSale = true) :
    ∀ acc : List AddItem, ∃ item ∈ req.foldl (processFreeItemsStep cart sf) acc,
      item.milestone = m := by
  induction req with
  | nil => cases hm
  | cons m' rest ih =>
    intro acc
    rw [List.foldl_cons]
    rcases List.mem_cons.mp hm with rfl | hm'
    · have hstep : processFreeItemsStep cart sf acc m =
          acc ++ [⟨m, v, createFreeItemLine v m⟩] := by
        simp [processFreeItemsStep, h1, h2, h3, h4]
      rw [hstep]
      exact ⟨⟨m, v, createFreeItemLine v m⟩,
        foldl_addStep_mono cart sf rest _ _ (List.mem_append_right _ (by simp)), rfl⟩
    · exact ih hm' _

theorem foldl_addStep_nil (cart : Cart) (sf : Option Catalog) (req : List MilestoneProgress)
    (h : ∀ m ∈ req, jsTruthyStr m.handle = false ∨
      ((cart.lines.getD []).any fun line =>
        jsOptStrEq line.productHandle m.handle && isFreeItemLine line) = true ∨
      (∀ v : ProductVariant,
        resolveProductVariant (m.handle.getD "") m.variant sf = some v →
        v.availableForSale = false)) :
    ∀ acc, req.foldl (processFreeItemsStep cart sf) acc = acc := by
  induction req with
  | nil => intro acc; rfl
  | cons m rest ih =>
    intro acc
    rw [List.foldl_cons]
    have hstep : processFreeItemsStep cart sf acc m = acc := by
      rcases h m (by simp) with h1 | h2 | h3
      · simp [processFreeItemsStep, h1]
      · cases htr : jsTruthyStr m.handle <;> simp [processFreeItemsStep, htr, h2]
      · cases htr : jsTruthyStr m.handle
        · simp [processFreeItemsStep, htr]
        · cases hex : ((cart.lines.getD []).any fun line =>
              jsOptStrEq line.productHandle m.handle && isFreeItemLine line)
          · rcases hres : resolveProductVariant (m.handle.getD "") m.variant sf with _ | v
            · simp [processFreeItemsStep, htr, hex, hres]
            · simp [processFreeItemsStep, htr, hex, hres, h3 v hres]
          · simp [processFreeItemsStep, htr, hex]
    rw [hstep]
    exact ih (fun x hx => h x (by simp [hx])) acc

theorem processFreeItems_itemsToRemove (req : List MilestoneProgress) (cart : Cart)
    (sub : JSNum) (sf : Option Catalog) :
    (processFreeItems req cart sub sf).itemsToRemove =
      getFreeItemsToRemove (cart.lines.getD []) sub := by
  unfold processFreeItems
  rcases hc : cart.lines with _ | nodes <;> simp [hc, getFreeItemsToRemove]

theorem processFreeItems_congr (req : List MilestoneProgress) (c1 c2 : Cart) (sub : JSNum)
    (sf : Option Catalog) (h : c1.lines.getD [] = c2.lines.getD []) :
    processFreeItems req c1 sub sf = processFreeItems req c2 sub sf := by
  have hstep : processFreeItemsStep c1 sf = processFreeItemsStep c2 sf := by
    funext acc m
    unfold processFreeItemsStep
    rw [h]
  have hrem := processFreeItems_itemsToRemove req c1 sub sf
  have hrem2 := processFreeItems_itemsToRemove req c2 sub sf
  unfold processFreeItems at hrem hrem2 ⊢
  simp only at hrem hrem2
  rw [hrem, hrem2, hstep, h]

theorem processFreeItems_itemsToAdd (req : List MilestoneProgress) (cart : Cart)
    (sub : JSNum) (sf : Option Catalog) :
    (processFreeItems req cart sub sf).itemsToAdd =
      req.foldl (processFreeItemsStep cart sf) [] := rfl

theorem getFreeItemsToRemove_eq_nil (lines : List CartLine) (sub : JSNum)
    (h : ∀ l ∈ lines, shouldRemoveFreeItemLine l sub = false) :
    getFreeItemsToRemove lines sub = [] := by
  unfold getFreeItemsToRemove
  rw [List.filter_eq_nil_iff.mpr (fun a ha hpa => by rw [h a ha] at hpa; cases hpa)]
  rfl

theorem apply_no_lines_state (cart : Cart) (variant : CartPerksVariant) (plan : CartPerksPlan)
    (hadds : plan.itemsToAdd = []) (hrems : plan.itemsToRemove = []) :
    (applyCartPerksPlan cart plan).lines = some (cart.lines.getD []) ∧
    calculateSubtotalExcludingFreeItems (applyCartPerksPlan cart plan) =
      calculateSubtotalExcludingFreeItems cart ∧
    calculateCartPerksState (applyCartPerksPlan cart plan) variant =
      calculateCartPerksState cart variant := by
  have h1 : (applyCartPerksPlan cart plan).lines = some (cart.lines.getD []) := by
    show some (applyLineOps (cart.lines.getD []) plan.itemsToRemove plan.itemsToAdd) = _
    rw [hadds, hrems, applyLineOps_nil]
  have h2 : calculateSubtotalExcludingFreeItems (applyCartPerksPlan cart plan) =
      calculateSubtotalExcludingFreeItems cart := by
    rw [subtotal_eq_foldl_getD, h1, Option.getD_some, ← subtotal_eq_foldl_getD]
  exact ⟨h1, h2, calculateCartPerksState_congr _ _ variant h2⟩

/-- C1 (amended): the reconciliation pass is idempotent — applying the first
plan and planning again yields the empty plan (no attribute update, no adds,
no removals; the pass never touches discount codes) — for every cart whose
line ids are pairwise distinct and in which no free line scheduled for
removal (stored threshold above the subtotal) shares its product handle with
a required (achieved) freeItem milestone.  Without the latter condition the
line removed by the first pass masks the re-add for exactly one pass, see the
counterexample. -/
theorem C1_idempotent_amended (cart : Cart) (variant : CartPerksVariant) (sf : Option Catalog)
    (hids : ((cart.lines.getD []).map (·.id)).Nodup)
    (hblock : ∀ l ∈ cart.lines.getD [],
      ∀ m ∈ getRequiredFreeItems (calculateCartPerksState cart variant),
      isFreeItemLine l = true → l.productHandle = m.handle →
      shouldRemoveFreeItemLine l (calculateCartPerksState cart variant).subtotal = false) :
    processCartPerksPlan (applyCartPerksPlan cart (processCartPerksPlan cart variant sf))
      variant sf = emptyPlan := by
  by_cases hreq : 0 < (getRequiredFreeItems (calculateCartPerksState cart variant)).length
  · by_cases hvalid : (validateFreeItemOperations (processFreeItems
        (getRequiredFreeItems (calculateCartPerksState cart variant)) cart
        (calculateCartPerksState cart variant).subtotal sf)).valid = true
    · -- Case C: the pass executes its free-item operations
      have hplan1 : processCartPerksPlan cart variant sf =
          { attributeUpdate := if needsShippingUpdate cart
              (shouldHaveFreeShipping (calculateCartPerksState cart variant)) = true then
              some (shouldHaveFreeShipping (calculateCartPerksState cart variant)) else none
            itemsToAdd := (processFreeItems
              (getRequiredFreeItems (calculateCartPerksState cart variant)) cart
              (calculateCartPerksState cart variant).subtotal sf).itemsToAdd
            itemsToRemove := (processFreeItems
              (getRequiredFreeItems (calculateCartPerksState cart variant)) cart
              (calculateCartPerksState cart variant).subtotal sf).itemsToRemove } := by
        simp only [processCartPerksPlan]
        rw [if_pos hreq, if_pos hvalid]
      have hattr1 : (processCartPerksPlan cart variant sf).attributeUpdate =
          if needsShippingUpdate cart
              (shouldHaveFreeShipping (calculateCartPerksState cart variant)) = true then
            some (shouldHaveFreeShipping (calculateCartPerksState cart variant)) else none := by
        rw [hplan1]
      have hADmem : ∀ item ∈ (processFreeItems
          (getRequiredFreeItems (calculateCartPerksState cart variant)) cart
          (calculateCartPerksState cart variant).subtotal sf).itemsToAdd,
          item.milestone ∈ getRequiredFreeItems (calculateCartPerksState cart variant) ∧
          item.line = createFreeItemLine item.variant item.milestone := by
        intro item hitem
        rw [processFreeItems_itemsToAdd] at hitem
        rcases foldl_addStep_mem cart sf _ [] item hitem with habs | hfacts
        · simp at habs
        · exact ⟨hfacts.1, hfacts.2.1⟩
      have hlines' : (applyCartPerksPlan cart (processCartPerksPlan cart variant sf)).lines.getD [] =
          applyLineOps (cart.lines.getD [])
            (getFreeItemsToRemove (cart.lines.getD [])
              (calculateCartPerksState cart variant).subtotal)
            (processFreeItems (getRequiredFreeItems (calculateCartPerksState cart variant)) cart
              (calculateCartPerksState cart variant).subtotal sf).itemsToAdd := by
        show applyLineOps (cart.lines.getD [])
            (processCartPerksPlan cart variant sf).itemsToRemove
            (processCartPerksPlan cart variant sf).itemsToAdd = _
        rw [hplan1]
        simp only
        rw [processFreeItems_itemsToRemove]
      have hsub' : calculateSubtotalExcludingFreeItems
          (applyCartPerksPlan cart (processCartPerksPlan cart variant sf)) =
          calculateSubtotalExcludingFreeItems cart := by
        rw [subtotal_eq_foldl_getD, hlines',
          subtotal_applyLineOps _ _ _ hids
            (fun item hitem => appliedFreeLine_isFree item (hADmem item hitem).2),
          ← subtotal_eq_foldl_getD]
      have hst' : calculateCartPerksState
          (applyCartPerksPlan cart (processCartPerksPlan cart variant sf)) variant =
          calculateCartPerksState cart variant :=
        calculateCartPerksState_congr _ _ variant hsub'
      have hsubsome : ∃ s : ℚ,
          calculateSubtotalExcludingFreeItems cart = some s ∧
          ∀ m ∈ getRequiredFreeItems (calculateCartPerksState cart variant),
            (m.threshold : ℚ) ≤ s := by
        obtain ⟨m0, hm0⟩ := List.exists_mem_of_length_pos hreq
        obtain ⟨hm0mem, hm0pred⟩ := List.mem_filter.mp hm0
        simp only [Bool.and_eq_true] at hm0pred
        have hach0 : m0.achieved = true := hm0pred.1.2
        obtain ⟨-, hge0⟩ := mem_milestones_spec cart variant m0 hm0mem
        rw [hach0] at hge0
        obtain ⟨s, t, hsubeq, hteq, -⟩ := (jsGe_eq_true_iff _ _).mp hge0.symm
        refine ⟨s, hsubeq, ?_⟩
        intro m hm
        obtain ⟨hmmem, hmpred⟩ := List.mem_filter.mp hm
        simp only [Bool.and_eq_true] at hmpred
        have hach : m.achieved = true := hmpred.1.2
        obtain ⟨-, hge⟩ := mem_milestones_spec cart variant m hmmem
        rw [hach] at hge
        obtain ⟨s2, t2, hs2, ht2, hle2⟩ := (jsGe_eq_true_iff _ _).mp hge.symm
        rw [hsubeq] at hs2
        cases hs2
        cases ht2
        exact hle2
      have hparse : ∀ m ∈ getRequiredFreeItems (calculateCartPerksState cart variant),
          parseFloatJS (Nat.repr m.threshold) = some (m.threshold : ℚ) := by
        intro m hm
        obtain ⟨hmmem, -⟩ := List.mem_filter.mp hm
        exact variants_threshold_roundtrip variant m.toMilestone
          (mem_milestones_spec cart variant m hmmem).1
      have hrem2 : getFreeItemsToRemove
          ((applyCartPerksPlan cart (processCartPerksPlan cart variant sf)).lines.getD [])
          (calculateCartPerksState cart variant).subtotal = [] := by
        obtain ⟨s, hsubs, hthr⟩ := hsubsome
        rw [hlines']
        apply getFreeItemsToRemove_eq_nil
        intro l hl
        unfold applyLineOps at hl
        rcases List.mem_append.mp hl with hkept | hadded
        · rw [filter_remove_ids _ _ hids] at hkept
          obtain ⟨-, hno⟩ := List.mem_filter.mp hkept
          rw [Bool.not_eq_true'] at hno
          exact hno
        · obtain ⟨item, hitem, rfl⟩ := List.mem_map.mp hadded
          obtain ⟨hmreq, hline⟩ := hADmem item hitem
          have hnr := appliedFreeLine_not_removed item s hline
            (hparse item.milestone hmreq) (hthr item.milestone hmreq)
          have hsubeq2 : (calculateCartPerksState cart variant).subtotal = some s := hsubs
          rw [hsubeq2]
          exact hnr
      have hadds2 : (getRequiredFreeItems (calculateCartPerksState cart variant)).foldl
          (processFreeItemsStep
            (applyCartPerksPlan cart (processCartPerksPlan cart variant sf)) sf) [] = [] := by
        apply foldl_addStep_nil
        intro m hm
        by_cases htr : jsTruthyStr m.handle = true
        · by_cases hex1 : ((cart.lines.getD []).any fun line =>
              jsOptStrEq line.productHandle m.handle && isFreeItemLine line) = true
          · obtain ⟨L, hL, hpL⟩ := List.any_eq_true.mp hex1
            rw [Bool.and_eq_true] at hpL
            obtain ⟨hEq, hFree⟩ := hpL
            have hEq' : (L.productHandle == m.handle) = true := hEq
            have hEqv : L.productHandle = m.handle := beq_iff_eq.mp hEq'
            have hno := hblock L hL m hm hFree hEqv
            refine Or.inr (Or.inl ?_)
            apply List.any_eq_true.mpr
            refine ⟨L, ?_, ?_⟩
            · rw [hlines']
              unfold applyLineOps
              apply List.mem_append_left
              rw [filter_remove_ids _ _ hids]
              refine List.mem_filter.mpr ⟨hL, ?_⟩
              rw [hno]
              rfl
            · rw [Bool.and_eq_true]
              exact ⟨hEq, hFree⟩
          · rcases hres : resolveProductVariant (m.handle.getD "") m.variant sf with _ | v
            · refine Or.inr (Or.inr ?_)
              intro v hv
              cases hv
            · by_cases hav : v.availableForSale = true
              · obtain ⟨item, hitemAD, hmil⟩ := foldl_addStep_pushed cart sf
                  (getRequiredFreeItems (calculateCartPerksState cart variant)) m v hm htr
                  (Bool.eq_false_iff.mpr hex1) hres hav []
                have hlinefact := hADmem item
                  (by rw [processFreeItems_itemsToAdd]; exact hitemAD)
                refine Or.inr (Or.inl ?_)
                apply List.any_eq_true.mpr
                refine ⟨appliedFreeLine item, ?_, ?_⟩
                · rw [hlines']
                  unfold applyLineOps
                  apply List.mem_append_right
                  apply List.mem_map.mpr
                  exact ⟨item, by rw [processFreeItems_itemsToAdd]; exact hitemAD, rfl⟩
                · rw [Bool.and_eq_true]
                  constructor
                  · show ((appliedFreeLine item).productHandle == m.handle) = true
                    have hph : (appliedFreeLine item).productHandle = m.handle := by
                      show item.milestone.handle = m.handle
                      rw [hmil]
                    rw [hph]
                    exact beq_self_eq_true _
                  · exact appliedFreeLine_isFree item hlinefact.2
              · refine Or.inr (Or.inr ?_)
                intro v' hv'
                cases hv'
                exact Bool.eq_false_iff.mpr hav
        · exact Or.inl (Bool.eq_false_iff.mpr htr)
      have hops2 : processFreeItems (getRequiredFreeItems (calculateCartPerksState cart variant))
          (applyCartPerksPlan cart (processCartPerksPlan cart variant sf))
          (calculateCartPerksState cart variant).subtotal sf =
          (⟨[], []⟩ : FreeItemOperations) := by
        have hA : (processFreeItems (getRequiredFreeItems (calculateCartPerksState cart variant))
            (applyCartPerksPlan cart (processCartPerksPlan cart variant sf))
            (calculateCartPerksState cart variant).subtotal sf).itemsToAdd = [] := by
          rw [processFreeItems_itemsToAdd]
          exact hadds2
        have hR : (processFreeItems (getRequiredFreeItems (calculateCartPerksState cart variant))
            (applyCartPerksPlan cart (processCartPerksPlan cart variant sf))
            (calculateCartPerksState cart variant).subtotal sf).itemsToRemove = [] := by
          rw [processFreeItems_itemsToRemove]
          exact hrem2
        rcases hcase : processFreeItems
            (getRequiredFreeItems (calculateCartPerksState cart variant))
            (applyCartPerksPlan cart (processCartPerksPlan cart variant sf))
            (calculateCartPerksState cart variant).subtotal sf with ⟨a, r⟩
        rw [hcase] at hA hR
        simp only at hA hR
        rw [hA, hR]
      have hneeds2 := needsShippingUpdate_after_apply cart
        (shouldHaveFreeShipping (calculateCartPerksState cart variant))
        (processCartPerksPlan cart variant sf) hattr1
      generalize hp : processCartPerksPlan cart variant sf = p at hst' hops2 hneeds2 ⊢
      simp only [processCartPerksPlan, hst']
      rw [if_pos hreq, hops2,
        if_pos (show (validateFreeItemOperations (⟨[], []⟩ : FreeItemOperations)).valid = true
          from rfl),
        hneeds2]
      rfl
    · -- Case B: validation fails; nothing is executed
      have hplan1 : processCartPerksPlan cart variant sf = emptyPlan := by
        simp only [processCartPerksPlan]
        rw [if_pos hreq, if_neg hvalid]
      have hadds1 : (processCartPerksPlan cart variant sf).itemsToAdd = [] := by
        rw [hplan1]
        rfl
      have hrems1 : (processCartPerksPlan cart variant sf).itemsToRemove = [] := by
        rw [hplan1]
        rfl
      obtain ⟨hl1, hs1, hst1⟩ :=
        apply_no_lines_state cart variant (processCartPerksPlan cart variant sf) hadds1 hrems1
      have hcongr : processFreeItems
          (getRequiredFreeItems (calculateCartPerksState cart variant))
          (applyCartPerksPlan cart (processCartPerksPlan cart variant sf))
          (calculateCartPerksState cart variant).subtotal sf =
          processFreeItems (getRequiredFreeItems (calculateCartPerksState cart variant)) cart
            (calculateCartPerksState cart variant).subtotal sf :=
        processFreeItems_congr _ _ _ _ _ (by rw [hl1, Option.getD_some])
      generalize hp : processCartPerksPlan cart variant sf = p at hst1 hcongr ⊢
      simp only [processCartPerksPlan, hst1]
      rw [if_pos hreq, hcongr, if_neg hvalid]
  · -- Case A: no required free items; plan1 is attribute-only
    have hplan1 : processCartPerksPlan cart variant sf =
        { attributeUpdate := if needsShippingUpdate cart
            (shouldHaveFreeShipping (calculateCartPerksState cart variant)) = true then
            some (shouldHaveFreeShipping (calculateCartPerksState cart variant)) else none
          itemsToAdd := []
          itemsToRemove := [] } := by
      simp only [processCartPerksPlan]
      rw [if_neg hreq]
    have hadds1 : (processCartPerksPlan cart variant sf).itemsToAdd = [] := by rw [hplan1]
    have hrems1 : (processCartPerksPlan cart variant sf).itemsToRemove = [] := by rw [hplan1]
    have hattr1 : (processCartPerksPlan cart variant sf).attributeUpdate =
        if needsShippingUpdate cart
            (shouldHaveFreeShipping (calculateCartPerksState cart variant)) = true then
          some (shouldHaveFreeShipping (calculateCartPerksState cart variant)) else none := by
      rw [hplan1]
    obtain ⟨hl1, hs1, hst1⟩ :=
      apply_no_lines_state cart variant (processCartPerksPlan cart variant sf) hadds1 hrems1
    have hneeds := needsShippingUpdate_after_apply cart
      (shouldHaveFreeShipping (calculateCartPerksState cart variant))
      (processCartPerksPlan cart variant sf) hattr1
    generalize hp : processCartPerksPlan cart variant sf = p at hst1 hneeds ⊢
    simp only [processCartPerksPlan, hst1]
    rw [if_neg hreq, hneeds]
    rfl

/-- C1 counterexample: on the stale cart (paid subtotal 120 plus a
black-sunnies free line stored at threshold 150) the first pass removes the
stale line yet skips re-adding the achieved black-sunnies milestone, because
the line marked for removal still counts as already-in-cart; the second pass
therefore emits an add, so the second plan is not empty. -/
theorem C1_counterexample :
    processCartPerksPlan
      (applyCartPerksPlan staleCart (processCartPerksPlan staleCart .B (some demoCatalog)))
      .B (some demoCatalog) ≠ emptyPlan := by
  with_unfolding_all decide

/-- Witness for C1 (amended): on a cart with a satisfied black-sunnies free
line and the shipping attribute already set, the second pass is empty. -/
theorem C1_amended_witness :
    processCartPerksPlan
      (applyCartPerksPlan wIdemCart (processCartPerksPlan wIdemCart .B (some demoCatalog)))
      .B (some demoCatalog) = emptyPlan :=
  C1_idempotent_amended wIdemCart .B (some demoCatalog) (by decide)
    (by with_unfolding_all decide)

end CartSpec
